import Mathlib

/-!
# covoar report engine (`tester/covoar/ReportsBase.cc`)

A shallow embedding of the report drivers of `ReportsBase.cc` and the
properties of their behaviour.

Conventions of the embedding.

* `std::string` values that the drivers inspect (source lines, annotation
  text) are lists of characters; names that are only passed through
  (symbol names, file names) are `String`.
* The formatter hooks (`Put*`, `Open*File`, `Close*File`, `AnnotatedStart`,
  `AnnotatedEnd`) are virtual and rendered elsewhere; a driver run is the
  sequence of hook calls it makes, with their arguments (`Event`).
* `uint32_t` values are natural numbers reduced modulo `2^32` wherever the
  source computes with them.
* `unsigned int` entry counters (`count`) are natural numbers; the values of
  the `getNumber...` counters of the symbol set are `unsigned int` values,
  and the sums and products the summary computes from them wrap modulo
  `2^32`.
* `double` values of the summary are exact rationals.
* The `assert` of `WriteAnnotatedReport` is compiled in; dereferencing a
  `NULL` coverage map ends the run.
* `rld::path::path_join` is a parameter of the path computations.
* Declarations that live in other files of the repository
  (`CoverageMapBase`, `CoverageRanges`, `SymbolInformation`,
  `DesiredSymbols`) are records holding exactly what `ReportsBase.cc` reads
  from them.
-/

namespace Coverage

/-! ## Data model -/

/-- The coverage map capability read by the drivers: four queries on a
byte offset (`CoverageMapBase::wasExecuted`, `isBranch`, `wasAlwaysTaken`,
`wasNeverTaken`). -/
structure CoverageMapBase where
  wasExecuted : Nat → Bool
  isBranch : Nat → Bool
  wasAlwaysTaken : Nat → Bool
  wasNeverTaken : Nat → Bool

/-- Modelled from the spec: a coverage range is a contiguous address
interval marked uncovered (the range type is declared in
`CoverageRanges.h`; the drivers only hand ranges to the formatter). -/
structure CoverageRange where
  lowAddress : Nat
  highAddress : Nat
deriving DecidableEq, Repr

/-- The part of `CoverageRanges` the drivers read: the container `set` and
the lookup `getId` from an address to a range identifier. -/
structure CoverageRanges where
  set : List CoverageRange
  getId : Nat → Nat

/-- One element of `info.instructions`: the fields read by
`WriteAnnotatedReport`. -/
structure Instruction where
  isInstruction : Bool
  address : Nat
  line : List Char

/-- The fields of `SymbolInformation` read by the drivers; a `NULL` pointer
is `none`. `sizeInBytes` is `info.stats.sizeInBytes`. -/
structure SymbolInformation where
  baseAddress : Nat
  instructions : List Instruction
  sizeInBytes : Nat
  unifiedCoverageMap : Option CoverageMapBase
  uncoveredRanges : Option CoverageRanges
  uncoveredBranches : Option CoverageRanges

/-- What the drivers read from `DesiredSymbols` for the symbol set of the
run: `symbols` is the walk `getSymbolsForSet` yields, each name paired with
the record `allSymbols().at( symbol )` returns for it; the other fields are
the values of the `getNumber...` counters (`unsigned int`). -/
structure DesiredSymbols where
  symbols : List (String × SymbolInformation)
  branchesFound : Nat
  branchesAlwaysTaken : Nat
  branchesNeverTaken : Nat
  branchesNotExecuted : Nat
  unreferencedSymbols : Nat
  uncoveredRanges : Nat

/-- The annotation states handed to `PutAnnotatedLine`. -/
inductive AnnotatedLineState_t where
  | A_SOURCE
  | A_EXECUTED
  | A_NEVER_EXECUTED
  | A_BRANCH_TAKEN
  | A_BRANCH_NOT_TAKEN
deriving DecidableEq, Repr

open AnnotatedLineState_t

/-- A call of a formatter hook, with the arguments the driver passes (the
stream argument and the `info` record, which is the walk element the
symbol name belongs to, are left out). -/
inductive Event where
  | OpenAnnotatedFile (fileName : String)
  | AnnotatedStart
  | PutAnnotatedLine (state : AnnotatedLineState_t) (line : List Char) (id : Nat)
  | AnnotatedEnd
  | CloseAnnotatedFile
  | OpenBranchFile (fileName : String) (hasBranches : Bool)
  | PutBranchEntry (count : Nat) (symbol : String) (range : CoverageRange)
  | CloseBranchFile (hasBranches : Bool)
  | OpenNoRangeFile (fileName : String)
  | OpenCoverageFile (fileName : String)
  | putCoverageNoRange (count : Nat) (symbol : String)
  | PutCoverageLine (count : Nat) (symbol : String) (range : CoverageRange)
  | CloseNoRangeFile
  | CloseCoverageFile
  | OpenSizeFile (fileName : String)
  | PutSizeLine (count : Nat) (symbol : String) (range : CoverageRange)
  | CloseSizeFile
  | OpenSymbolSummaryFile (fileName : String)
  | PutSymbolSummaryLine (count : Nat) (symbol : String)
  | CloseSymbolSummaryFile
deriving DecidableEq, Repr

/-- What an `Open*File` hook leaves behind: it threw (`OpenFile` could not
create the directory), or it returned with the stream closed or open. -/
inductive OpenOutcome where
  | threw
  | notOpen
  | isOpen
deriving DecidableEq, Repr

/-- How a driver run ends. -/
inductive Termination where
  | returned
  | threw (what : String) (location : String)
  | assertionFailed
  | nullDereference
deriving DecidableEq, Repr

/-- A driver run: the hook calls made, in order, and how the run ended. -/
structure Run where
  trace : List Event
  result : Termination
deriving DecidableEq, Repr

/-! ## Line normalizer -/

/-- The function `expand_tabs`; the loop state is `(expanded, i)`. -/
def expand_tabs (input : List Char) : List Char :=
  (input.foldl
    (fun (st : List Char × Nat) (c : Char) =>
      if c = '\t' then
        let num_tabs := 4 - (st.2 % 4)
        (st.1 ++ List.replicate num_tabs ' ', st.2 + num_tabs)
      else
        (st.1 ++ [c], st.2 + 1))
    ([], 0)).1

/-- The C string `std::string::c_str()` yields, as `operator<<` reads it:
the characters before the first NUL. -/
def c_str (s : List Char) : List Char :=
  s.takeWhile (fun c => c != Char.ofNat 0)

/-- The output of `ss << std::left << std::setw( w ) << text`: the text,
followed by spaces up to width `w` when it is shorter. -/
def setwLeft (w : Nat) (text : List Char) : List Char :=
  text ++ List.replicate (w - text.length) ' '

/-- The constant `LINE_LENGTH` of `WriteAnnotatedReport`. -/
def LINE_LENGTH : Nat := 150

/-- The value of `textLine` in `WriteAnnotatedReport` (lines 290-295). -/
def textLine (line : List Char) : List Char :=
  let textLineWithoutTabs := expand_tabs line
  (setwLeft 90 (c_str textLineWithoutTabs)).take LINE_LENGTH

/-! ## Annotated report -/

/-- Subtraction `a - b` on `uint32_t`. -/
def sub32 (a b : Nat) : Nat :=
  (a % 2 ^ 32 + 2 ^ 32 - b % 2 ^ 32) % 2 ^ 32

/-- The classification of one instruction in `WriteAnnotatedReport`
(lines 256-288): the values of `state`, of the annotation text and of `id`
when the line is put together. `none`: the `NULL` coverage map was
dereferenced. -/
def annotate (theCoverageMap : Option CoverageMapBase) (bAddress : Nat)
    (theRanges theBranches : CoverageRanges) (instruction : Instruction) :
    Option (AnnotatedLineState_t × List Char × Nat) :=
  if instruction.isInstruction then
    match theCoverageMap with
    | none => none
    | some map =>
      if !map.wasExecuted (sub32 instruction.address bAddress) then
        some (A_NEVER_EXECUTED, "<== NOT EXECUTED".toList, theRanges.getId instruction.address)
      else if map.isBranch (sub32 instruction.address bAddress) then
        let id := theBranches.getId instruction.address
        if map.wasAlwaysTaken (sub32 instruction.address bAddress) then
          some (A_BRANCH_TAKEN, "<== ALWAYS TAKEN".toList, id)
        else if map.wasNeverTaken (sub32 instruction.address bAddress) then
          some (A_BRANCH_NOT_TAKEN, "<== NEVER TAKEN".toList, id)
        else
          some (A_SOURCE, [], id)
      else
        some (A_EXECUTED, [], 0)
  else
    some (A_SOURCE, [], 0)

/-- One iteration of the instruction loop of `WriteAnnotatedReport`
(lines 255-300): the `PutAnnotatedLine` call it makes. -/
def annotatedLine (theCoverageMap : Option CoverageMapBase) (bAddress : Nat)
    (theRanges theBranches : CoverageRanges) (instruction : Instruction) :
    Option Event :=
  match annotate theCoverageMap bAddress theRanges theBranches instruction with
  | none => none
  | some (state, suffix, id) =>
    some (Event.PutAnnotatedLine state (textLine instruction.line ++ suffix) id)

/-- The instruction loop of `WriteAnnotatedReport`: the calls made, and
whether the loop ran to its end. -/
def annotatedLines (theCoverageMap : Option CoverageMapBase) (bAddress : Nat)
    (theRanges theBranches : CoverageRanges) :
    List Instruction → List Event × Bool
  | [] => ([], true)
  | instruction :: rest =>
    match annotatedLine theCoverageMap bAddress theRanges theBranches instruction with
    | none => ([], false)
    | some e =>
      let r := annotatedLines theCoverageMap bAddress theRanges theBranches rest
      (e :: r.1, r.2)

/-- The symbol loop of `WriteAnnotatedReport` (lines 222-303), followed by
`CloseAnnotatedFile` when the loop ends. -/
def annotatedSymbols : List (String × SymbolInformation) → Run
  | [] => ⟨[Event.CloseAnnotatedFile], Termination.returned⟩
  | (_, info) :: rest =>
    match info.uncoveredRanges, info.uncoveredBranches with
    | none, none => annotatedSymbols rest
    | some theRanges, some theBranches =>
      if theRanges.set.isEmpty && theBranches.set.isEmpty then
        annotatedSymbols rest
      else
        let r := annotatedLines info.unifiedCoverageMap info.baseAddress
          theRanges theBranches info.instructions
        if r.2 then
          let k := annotatedSymbols rest
          ⟨Event.AnnotatedStart :: r.1 ++ Event.AnnotatedEnd :: k.trace, k.result⟩
        else
          ⟨Event.AnnotatedStart :: r.1, Termination.nullDereference⟩
    | _, _ => ⟨[], Termination.assertionFailed⟩

/-- The driver `ReportsBase::WriteAnnotatedReport`. -/
def WriteAnnotatedReport (opened : OpenOutcome) (fileName : String)
    (symbolsToAnalyze : DesiredSymbols) : Run :=
  match opened with
  | OpenOutcome.threw =>
    ⟨[Event.OpenAnnotatedFile fileName],
      Termination.threw "Unable to create output directory" "ReportsBase::OpenFile"⟩
  | OpenOutcome.notOpen =>
    ⟨[Event.OpenAnnotatedFile fileName],
      Termination.threw ("Unable to open " ++ fileName) "ReportsBase::WriteAnnotatedReport"⟩
  | OpenOutcome.isOpen =>
    let r := annotatedSymbols symbolsToAnalyze.symbols
    ⟨Event.OpenAnnotatedFile fileName :: r.trace, r.result⟩

/-! ## Branch report -/

/-- The flag `hasBranches` of `WriteBranchReport` (lines 316-323). -/
def hasBranches (symbolsToAnalyze : DesiredSymbols) (branchInfoAvailable : Bool) : Bool :=
  if symbolsToAnalyze.branchesFound == 0 || branchInfoAvailable == false then false else true

/-- The range loop of `WriteBranchReport` (lines 348-351) from a value of
`count`: the calls made and the value of `count` after the loop. The
counter is an `unsigned int`; it is kept a natural number, the walk would
have to make `2^32` calls to wrap it. -/
def branchEntries (symbol : String) : List CoverageRange → Nat → List Event × Nat
  | [], count => ([], count)
  | range :: rest, count =>
    let count := count + 1
    let r := branchEntries symbol rest count
    (Event.PutBranchEntry count symbol range :: r.1, r.2)

/-- The symbol loop of `WriteBranchReport` (lines 341-353). -/
def branchSymbols : List (String × SymbolInformation) → Nat → List Event × Nat
  | [], count => ([], count)
  | (symbol, info) :: rest, count =>
    match info.uncoveredBranches with
    | some theBranches =>
      if !theBranches.set.isEmpty then
        let r := branchEntries symbol theBranches.set count
        let k := branchSymbols rest r.2
        (r.1 ++ k.1, k.2)
      else
        branchSymbols rest count
    | none => branchSymbols rest count

/-- The driver `ReportsBase::WriteBranchReport`. -/
def WriteBranchReport (opened : OpenOutcome) (fileName : String)
    (symbolsToAnalyze : DesiredSymbols) (branchInfoAvailable : Bool) : Run :=
  let hasBranches := hasBranches symbolsToAnalyze branchInfoAvailable
  match opened with
  | OpenOutcome.threw =>
    ⟨[Event.OpenBranchFile fileName hasBranches],
      Termination.threw "Unable to create output directory" "ReportsBase::OpenFile"⟩
  | OpenOutcome.notOpen =>
    ⟨[Event.OpenBranchFile fileName hasBranches], Termination.returned⟩
  | OpenOutcome.isOpen =>
    let entries :=
      if symbolsToAnalyze.branchesFound != 0 && branchInfoAvailable == true then
        (branchSymbols symbolsToAnalyze.symbols 0).1
      else
        []
    ⟨Event.OpenBranchFile fileName hasBranches :: entries ++
      [Event.CloseBranchFile hasBranches], Termination.returned⟩

/-! ## Coverage report -/

/-- The range loop of `WriteCoverageReport` (lines 403-406). -/
def coverageLines (symbol : String) : List CoverageRange → Nat → List Event × Nat
  | [], count => ([], count)
  | range :: rest, count =>
    let r := coverageLines symbol rest (count + 1)
    (Event.PutCoverageLine count symbol range :: r.1, r.2)

/-- The symbol loop of `WriteCoverageReport` (lines 389-408): the calls
made and the final value of `count`. -/
def coverageSymbols : List (String × SymbolInformation) → Nat → List Event × Nat
  | [], count => ([], count)
  | (symbol, info) :: rest, count =>
    match info.uncoveredRanges with
    | none =>
      let k := coverageSymbols rest (count + 1)
      (Event.putCoverageNoRange count symbol :: k.1, k.2)
    | some theRanges =>
      if !theRanges.set.isEmpty then
        let r := coverageLines symbol theRanges.set count
        let k := coverageSymbols rest r.2
        (r.1 ++ k.1, k.2)
      else
        coverageSymbols rest count

/-- The driver `ReportsBase::WriteCoverageReport`; `openedNoRange` and
`openedReport` are the outcomes of its two open hooks. -/
def WriteCoverageReport (openedNoRange openedReport : OpenOutcome) (fileName : String)
    (symbolsToAnalyze : DesiredSymbols) : Run :=
  let NoRangeName := "no_range_" ++ fileName
  match openedNoRange with
  | OpenOutcome.threw =>
    ⟨[Event.OpenNoRangeFile NoRangeName],
      Termination.threw "Unable to create output directory" "ReportsBase::OpenFile"⟩
  | OpenOutcome.notOpen => ⟨[Event.OpenNoRangeFile NoRangeName], Termination.returned⟩
  | OpenOutcome.isOpen =>
    match openedReport with
    | OpenOutcome.threw =>
      ⟨[Event.OpenNoRangeFile NoRangeName, Event.OpenCoverageFile fileName],
        Termination.threw "Unable to create output directory" "ReportsBase::OpenFile"⟩
    | OpenOutcome.notOpen =>
      ⟨[Event.OpenNoRangeFile NoRangeName, Event.OpenCoverageFile fileName],
        Termination.returned⟩
    | OpenOutcome.isOpen =>
      ⟨Event.OpenNoRangeFile NoRangeName :: Event.OpenCoverageFile fileName ::
        (coverageSymbols symbolsToAnalyze.symbols 0).1 ++
        [Event.CloseNoRangeFile, Event.CloseCoverageFile], Termination.returned⟩

/-! ## Size and symbol summary reports -/

/-- The range loop of `WriteSizeReport` (lines 441-444). -/
def sizeLines (symbol : String) : List CoverageRange → Nat → List Event × Nat
  | [], count => ([], count)
  | range :: rest, count =>
    let r := sizeLines symbol rest (count + 1)
    (Event.PutSizeLine count symbol range :: r.1, r.2)

/-- The symbol loop of `WriteSizeReport` (lines 434-446). -/
def sizeSymbols : List (String × SymbolInformation) → Nat → List Event × Nat
  | [], count => ([], count)
  | (symbol, info) :: rest, count =>
    match info.uncoveredRanges with
    | some theRanges =>
      if !theRanges.set.isEmpty then
        let r := sizeLines symbol theRanges.set count
        let k := sizeSymbols rest r.2
        (r.1 ++ k.1, k.2)
      else
        sizeSymbols rest count
    | none => sizeSymbols rest count

/-- The driver `ReportsBase::WriteSizeReport`. -/
def WriteSizeReport (opened : OpenOutcome) (fileName : String)
    (symbolsToAnalyze : DesiredSymbols) : Run :=
  match opened with
  | OpenOutcome.threw =>
    ⟨[Event.OpenSizeFile fileName],
      Termination.threw "Unable to create output directory" "ReportsBase::OpenFile"⟩
  | OpenOutcome.notOpen => ⟨[Event.OpenSizeFile fileName], Termination.returned⟩
  | OpenOutcome.isOpen =>
    ⟨Event.OpenSizeFile fileName :: (sizeSymbols symbolsToAnalyze.symbols 0).1 ++
      [Event.CloseSizeFile], Termination.returned⟩

/-- The symbol loop of `WriteSymbolSummaryReport` (lines 470-476). -/
def symbolSummaryLines : List (String × SymbolInformation) → Nat → List Event × Nat
  | [], count => ([], count)
  | (symbol, _) :: rest, count =>
    let k := symbolSummaryLines rest (count + 1)
    (Event.PutSymbolSummaryLine count symbol :: k.1, k.2)

/-- The driver `ReportsBase::WriteSymbolSummaryReport`. -/
def WriteSymbolSummaryReport (opened : OpenOutcome) (fileName : String)
    (symbolsToAnalyze : DesiredSymbols) : Run :=
  match opened with
  | OpenOutcome.threw =>
    ⟨[Event.OpenSymbolSummaryFile fileName],
      Termination.threw "Unable to create output directory" "ReportsBase::OpenFile"⟩
  | OpenOutcome.notOpen => ⟨[Event.OpenSymbolSummaryFile fileName], Termination.returned⟩
  | OpenOutcome.isOpen =>
    ⟨Event.OpenSymbolSummaryFile fileName ::
      (symbolSummaryLines symbolsToAnalyze.symbols 0).1 ++
      [Event.CloseSymbolSummaryFile], Termination.returned⟩

/-! ## Summary report -/

/-- The byte loop of `WriteSummaryReport` (lines 519-523) from a loop state
`(a, totalBytes, notExecuted)`, all three `uint32_t`: at most `fuel` tests
of the loop condition are made, `none` when the loop has not ended by then.
The result is `(totalBytes, notExecuted)` at the exit. -/
def scanBytes (theCoverageMap : CoverageMapBase) (endAddress : Nat) :
    Nat → Nat → Nat → Nat → Option (Nat × Nat)
  | 0, _, _, _ => none
  | fuel + 1, a, totalBytes, notExecuted =>
    if a ≤ endAddress then
      scanBytes theCoverageMap endAddress fuel ((a + 1) % 2 ^ 32)
        ((totalBytes + 1) % 2 ^ 32)
        (if !theCoverageMap.wasExecuted a then (notExecuted + 1) % 2 ^ 32 else notExecuted)
    else
      some (totalBytes, notExecuted)

/-- The symbol loop of `WriteSummaryReport` (lines 509-525); every byte
loop gets `fuel` tests of its condition. -/
def scanSymbols (fuel : Nat) :
    List (String × SymbolInformation) → Nat → Nat → Option (Nat × Nat)
  | [], totalBytes, notExecuted => some (totalBytes, notExecuted)
  | (_, info) :: rest, totalBytes, notExecuted =>
    match info.unifiedCoverageMap with
    | some theCoverageMap =>
      let endAddress := sub32 info.sizeInBytes 1
      match scanBytes theCoverageMap endAddress fuel 0 totalBytes notExecuted with
      | none => none
      | some r => scanSymbols fuel rest r.1 r.2
    | none => scanSymbols fuel rest totalBytes notExecuted

/-- The branch lines of the summary (lines 560-577), in the order they are
written. -/
structure BranchSummary where
  totalConditionalBranches : Nat
  totalBranchPaths : Nat
  uncoveredBranchPaths : Nat
  branchesAlwaysTaken : Nat
  branchesNeverTaken : Nat
  branchPathsNotExecuted : Nat
  percentageBranchPathsCovered : ℚ
deriving DecidableEq

/-- The values written to `summary.txt` (lines 542-579); `branches` is
`none` when the line "No branch information available" is written
instead. -/
structure SummaryReport where
  bytesAnalyzed : Nat
  bytesNotExecuted : Nat
  percentageExecuted : ℚ
  percentageNotExecuted : ℚ
  unreferencedSymbols : Nat
  uncoveredRangesFound : Nat
  branches : Option BranchSummary
deriving DecidableEq

/-- Addition `a + b` on `unsigned int` (32 bits). -/
def add32 (a b : Nat) : Nat :=
  (a + b) % 2 ^ 32

/-- Multiplication `a * b` on `unsigned int` (32 bits). -/
def mul32 (a b : Nat) : Nat :=
  (a * b) % 2 ^ 32

/-- The statistics and output of `WriteSummaryReport` after the scan
(lines 527-579). The sums and products of the `getNumber...` counters are
computed on `unsigned int` and wrap; the divisor of line 539 is converted to
`double` before it is doubled and does not. -/
def summaryReport (totalBytes notExecuted : Nat) (symbolsToAnalyze : DesiredSymbols)
    (branchInfoAvailable : Bool) : SummaryReport :=
  let percentage : ℚ :=
    if totalBytes == 0 then 0 else 100 * (notExecuted : ℚ) / (totalBytes : ℚ)
  let percentageBranches : ℚ :=
    ((add32 (add32 symbolsToAnalyze.branchesAlwaysTaken symbolsToAnalyze.branchesNeverTaken)
      (mul32 symbolsToAnalyze.branchesNotExecuted 2) : Nat) : ℚ)
  let percentageBranches := percentageBranches / ((symbolsToAnalyze.branchesFound : ℚ) * 2)
  let percentageBranches := percentageBranches * 100
  { bytesAnalyzed := totalBytes
    bytesNotExecuted := notExecuted
    percentageExecuted := 100 - percentage
    percentageNotExecuted := percentage
    unreferencedSymbols := symbolsToAnalyze.unreferencedSymbols
    uncoveredRangesFound := symbolsToAnalyze.uncoveredRanges
    branches :=
      if symbolsToAnalyze.branchesFound == 0 || branchInfoAvailable == false then
        none
      else
        some
          { totalConditionalBranches := symbolsToAnalyze.branchesFound
            totalBranchPaths := mul32 symbolsToAnalyze.branchesFound 2
            uncoveredBranchPaths :=
              add32
                (add32 symbolsToAnalyze.branchesAlwaysTaken
                  symbolsToAnalyze.branchesNeverTaken)
                (mul32 symbolsToAnalyze.branchesNotExecuted 2)
            branchesAlwaysTaken := symbolsToAnalyze.branchesAlwaysTaken
            branchesNeverTaken := symbolsToAnalyze.branchesNeverTaken
            branchPathsNotExecuted := mul32 symbolsToAnalyze.branchesNotExecuted 2
            percentageBranchPathsCovered := 100 - percentageBranches } }

/-- How a run of `WriteSummaryReport` ends: the open hook threw, the stream
was not open and the driver returned, or the report was written. -/
inductive SummaryOutcome where
  | threw
  | notWritten
  | written (report : SummaryReport)
deriving DecidableEq

/-- The driver `ReportsBase::WriteSummaryReport`; `none` when a byte loop
has not ended within `fuel` tests of its condition. -/
def WriteSummaryReport (fuel : Nat) (opened : OpenOutcome)
    (symbolsToAnalyze : DesiredSymbols) (branchInfoAvailable : Bool) :
    Option SummaryOutcome :=
  match opened with
  | OpenOutcome.threw => some SummaryOutcome.threw
  | OpenOutcome.notOpen => some SummaryOutcome.notWritten
  | OpenOutcome.isOpen =>
    match scanSymbols fuel symbolsToAnalyze.symbols 0 0 with
    | none => none
    | some r => some (SummaryOutcome.written (summaryReport r.1 r.2 symbolsToAnalyze branchInfoAvailable))

/-! ## Numbered entries -/

/-- The entries of a numbered report as a list of calls that still wait for
their number; `numberFrom start` gives the first one `start` and every later
one the number of the one before plus 1. -/
def numberFrom (start : Nat) (entries : List (Nat → Event)) : List Event :=
  (entries.enumFrom start).map (fun p => p.2 p.1)

/-- One `PutBranchEntry` per range of every symbol's uncovered-branch set,
in symbol-walk order. -/
def branchEntriesOf (symbols : List (String × SymbolInformation)) : List (Nat → Event) :=
  symbols.flatMap (fun s =>
    match s.2.uncoveredBranches with
    | some theBranches => theBranches.set.map (fun range count => Event.PutBranchEntry count s.1 range)
    | none => [])

/-- The entries of the coverage report in symbol-walk order: one
`putCoverageNoRange` for a symbol without an uncovered-range set, one
`PutCoverageLine` per range of a symbol with one (none when it is empty). -/
def coverageEntriesOf (symbols : List (String × SymbolInformation)) : List (Nat → Event) :=
  symbols.flatMap (fun s =>
    match s.2.uncoveredRanges with
    | none => [fun count => Event.putCoverageNoRange count s.1]
    | some theRanges => theRanges.set.map (fun range count => Event.PutCoverageLine count s.1 range))

/-! ## Byte counts of a walk -/

/-- The sum of `sizeInBytes` over the symbols of the walk that have a unified
coverage map. -/
def mappedBytes (symbols : List (String × SymbolInformation)) : Nat :=
  (symbols.map (fun s =>
    match s.2.unifiedCoverageMap with
    | some _ => s.2.sizeInBytes
    | none => 0)).sum

/-- The number of pairs of a symbol of the walk that has a unified coverage
map and an offset `0 .. sizeInBytes - 1` of it for which `wasExecuted` is
false. -/
def notExecutedBytes (symbols : List (String × SymbolInformation)) : Nat :=
  (symbols.map (fun s =>
    match s.2.unifiedCoverageMap with
    | some theCoverageMap =>
      ((List.range s.2.sizeInBytes).filter (fun a => !theCoverageMap.wasExecuted a)).length
    | none => 0)).sum

/-! ## Loop state of the tab expansion -/

/-- The loop state `(expanded, i)` of `expand_tabs` after the characters of
`input` have been read; `expand_tabs` returns its first component. -/
def expand_tabs_state (input : List Char) : List Char × Nat :=
  input.foldl
    (fun (st : List Char × Nat) (c : Char) =>
      if c = '\t' then
        let num_tabs := 4 - (st.2 % 4)
        (st.1 ++ List.replicate num_tabs ' ', st.2 + num_tabs)
      else
        (st.1 ++ [c], st.2 + 1))
    ([], 0)

/-! ## Symbols of the annotated walk -/

/-- A symbol the annotated report emits nothing for: its uncovered-range
and uncovered-branch sets are both absent, or both present and empty. -/
def skipsSymbol (info : SymbolInformation) : Bool :=
  match info.uncoveredRanges, info.uncoveredBranches with
  | none, none => true
  | some theRanges, some theBranches => theRanges.set.isEmpty && theBranches.set.isEmpty
  | _, _ => false

/-- A symbol with exactly one of its uncovered-range set and its
uncovered-branch set present. -/
def exactlyOnePresent (info : SymbolInformation) : Bool :=
  info.uncoveredRanges.isSome != info.uncoveredBranches.isSome

/-- The calls the annotated report makes for one symbol of the walk:
nothing for a skipped symbol, otherwise `AnnotatedStart`, the lines of its
instructions in order, `AnnotatedEnd`. -/
def annotatedBlockOf (s : String × SymbolInformation) : List Event :=
  match s.2.uncoveredRanges, s.2.uncoveredBranches with
  | some theRanges, some theBranches =>
    if skipsSymbol s.2 then []
    else
      Event.AnnotatedStart ::
        s.2.instructions.filterMap
          (annotatedLine s.2.unifiedCoverageMap s.2.baseAddress theRanges theBranches) ++
        [Event.AnnotatedEnd]
  | _, _ => []

/-! ## Annotation text of a state -/

/-- The annotation text that goes with a state. -/
def suffixOf : AnnotatedLineState_t → List Char
  | AnnotatedLineState_t.A_SOURCE => []
  | AnnotatedLineState_t.A_EXECUTED => []
  | AnnotatedLineState_t.A_NEVER_EXECUTED => "<== NOT EXECUTED".toList
  | AnnotatedLineState_t.A_BRANCH_TAKEN => "<== ALWAYS TAKEN".toList
  | AnnotatedLineState_t.A_BRANCH_NOT_TAKEN => "<== NEVER TAKEN".toList

/-! ## Output files -/

/-- The paths `ReportsBase::OpenFile` computes (lines 59-81), with
`rld::path::path_join` as a parameter: the directory it creates and the file
it opens. -/
def OpenFile (path_join : String → String → String)
    (fileName symbolSetName outputDirectory : String) : String × String :=
  let symbolSetOutputDirectory := path_join outputDirectory symbolSetName
  let file := symbolSetOutputDirectory
  (symbolSetOutputDirectory, path_join file fileName)

/-- The body shared by the hooks `OpenAnnotatedFile`, `OpenBranchFile`,
`OpenCoverageFile`, `OpenNoRangeFile`, `OpenSizeFile` and
`OpenSymbolSummaryFile` of the base class (lines 94-142), for a report object
with members `symbolSetName_m` and `outputDirectory_m`. -/
def OpenReportFile (path_join : String → String → String)
    (symbolSetName_m outputDirectory_m : String) (fileName : String) : String × String :=
  OpenFile path_join fileName symbolSetName_m outputDirectory_m

/-- The paths of the summary: `GenerateReports` calls `WriteSummaryReport`
with `"summary.txt"`, `symbolSetName` and `outputDirectory` (lines 665-671),
which hands them to `OpenFile` (line 500). -/
def summaryFile (path_join : String → String → String)
    (symbolSetName outputDirectory : String) : String × String :=
  OpenFile path_join "summary.txt" symbolSetName outputDirectory

/-- Modelled from the spec: `rld::path::path_join` is declared outside
`ReportsBase.cc`; the spec has it join `baseDir/subsetName/fileName`, a
separator between the two parts. -/
def slashJoin (base part : String) : String :=
  base ++ "/" ++ part

/-! ## Example data -/

/-- A coverage map in which every offset was executed and is a branch
taken both ways, except offset 8, which was never executed. -/
def exampleMap : CoverageMapBase where
  wasExecuted := fun a => a != 8
  isBranch := fun _ => true
  wasAlwaysTaken := fun _ => false
  wasNeverTaken := fun _ => false

/-- A coverage map of straight-line code: everything executed, no branch. -/
def exampleStraightMap : CoverageMapBase where
  wasExecuted := fun _ => true
  isBranch := fun _ => false
  wasAlwaysTaken := fun _ => false
  wasNeverTaken := fun _ => false

/-- A coverage map in which every offset is an executed branch that is
flagged both always taken and never taken, except offset 4, which is flagged
never taken only. -/
def exampleBranchMap : CoverageMapBase where
  wasExecuted := fun _ => true
  isBranch := fun _ => true
  wasAlwaysTaken := fun a => a != 4
  wasNeverTaken := fun _ => true

/-- An uncovered-range set with one range, identified as 7. -/
def exampleRanges : CoverageRanges where
  set := [⟨264, 267⟩]
  getId := fun a => if a = 264 then 7 else 0

/-- An uncovered-branch set with one range, identified as 3. -/
def exampleBranches : CoverageRanges where
  set := [⟨260, 263⟩]
  getId := fun a => if a = 260 then 3 else 0

/-- A real instruction at address 260 (offset 4 from base 256). -/
def exampleBranchInstruction : Instruction where
  isInstruction := true
  address := 260
  line := "\tbeq 10c".toList

/-- A real instruction at address 264 (offset 8 from base 256). -/
def exampleInstruction : Instruction where
  isInstruction := true
  address := 264
  line := "\tnop".toList

/-- A source line carried in the instruction list. -/
def exampleSourceLine : Instruction where
  isInstruction := false
  address := 264
  line := "f:".toList

/-- A symbol record with the given uncovered sets and nothing else. -/
def exampleSymbol (uncoveredRanges uncoveredBranches : Option CoverageRanges) :
    SymbolInformation where
  baseAddress := 256
  instructions := []
  sizeInBytes := 16
  unifiedCoverageMap := none
  uncoveredRanges := uncoveredRanges
  uncoveredBranches := uncoveredBranches

/-- The walk `[A(never-referenced), B(2 ranges), C(no ranges)]`; `B` has two
uncovered ranges and two uncovered branches, `C` has both sets empty. -/
def exampleWalk : List (String × SymbolInformation) :=
  [ ("A", exampleSymbol none none),
    ("B", exampleSymbol (some ⟨[⟨256, 259⟩, ⟨264, 267⟩], fun _ => 0⟩)
      (some ⟨[⟨260, 263⟩, ⟨268, 271⟩], fun _ => 0⟩)),
    ("C", exampleSymbol (some ⟨[], fun _ => 0⟩) (some ⟨[], fun _ => 0⟩)) ]

/-- The symbol set of the example: the walk above, with two branches found. -/
def exampleDesiredSymbols : DesiredSymbols where
  symbols := exampleWalk
  branchesFound := 2
  branchesAlwaysTaken := 1
  branchesNeverTaken := 1
  branchesNotExecuted := 0
  unreferencedSymbols := 1
  uncoveredRanges := 2

/-- A symbol record for the summary: a size and, possibly, a coverage map. -/
def exampleSized (sizeInBytes : Nat) (unifiedCoverageMap : Option CoverageMapBase) :
    SymbolInformation where
  baseAddress := 256
  instructions := []
  sizeInBytes := sizeInBytes
  unifiedCoverageMap := unifiedCoverageMap
  uncoveredRanges := none
  uncoveredBranches := none

/-- A symbol set with the given walk and the branch counters
`branchesFound=10, alwaysTaken=2, neverTaken=1, notExecuted=1`. -/
def exampleSummarySymbols (symbols : List (String × SymbolInformation)) : DesiredSymbols where
  symbols := symbols
  branchesFound := 10
  branchesAlwaysTaken := 2
  branchesNeverTaken := 1
  branchesNotExecuted := 1
  unreferencedSymbols := 0
  uncoveredRanges := 0

/-- A symbol with an empty uncovered-range set, one uncovered branch, a
coverage map and two lines: a source line and a branch instruction. -/
def exampleBranchSymbol : SymbolInformation where
  baseAddress := 256
  instructions := [exampleSourceLine, exampleBranchInstruction]
  sizeInBytes := 16
  unifiedCoverageMap := some exampleBranchMap
  uncoveredRanges := some ⟨[], fun _ => 0⟩
  uncoveredBranches := some exampleBranches

/-- A walk of a never-referenced symbol `A`, the symbol `B` above and a
fully covered symbol `C`. -/
def exampleAnnotatedSymbols : DesiredSymbols where
  symbols :=
    [ ("A", exampleSymbol none none), ("B", exampleBranchSymbol),
      ("C", exampleSymbol (some ⟨[], fun _ => 0⟩) (some ⟨[], fun _ => 0⟩)) ]
  branchesFound := 1
  branchesAlwaysTaken := 0
  branchesNeverTaken := 1
  branchesNotExecuted := 0
  unreferencedSymbols := 1
  uncoveredRanges := 0

/-- A walk whose second symbol has an uncovered-range set and no
uncovered-branch set. -/
def exampleBrokenSymbols : DesiredSymbols where
  symbols :=
    [ ("A", exampleSymbol none none), ("D", exampleSymbol (some exampleRanges) none),
      ("B", exampleBranchSymbol) ]
  branchesFound := 1
  branchesAlwaysTaken := 0
  branchesNeverTaken := 1
  branchesNotExecuted := 0
  unreferencedSymbols := 1
  uncoveredRanges := 0

/-- The walk of three sized symbols: 10 bytes with offset 8 not executed,
5 bytes without a coverage map, 4 bytes all executed. -/
def exampleSizedWalk : List (String × SymbolInformation) :=
  [ ("f", exampleSized 10 (some exampleMap)), ("g", exampleSized 5 none),
    ("h", exampleSized 4 (some exampleStraightMap)) ]

/-- A symbol set with an empty walk and counters near the top of the
`unsigned int` range. -/
def exampleManyBranches : DesiredSymbols where
  symbols := []
  branchesFound := 4294967294
  branchesAlwaysTaken := 0
  branchesNeverTaken := 0
  branchesNotExecuted := 2147483649
  unreferencedSymbols := 0
  uncoveredRanges := 0

/-- A walk of one symbol that has both uncovered sets, no unified coverage
map and two lines: a source line and a branch instruction. -/
def exampleUnmappedSymbols : DesiredSymbols where
  symbols := [("B", { exampleBranchSymbol with unifiedCoverageMap := none })]
  branchesFound := 1
  branchesAlwaysTaken := 0
  branchesNeverTaken := 1
  branchesNotExecuted := 0
  unreferencedSymbols := 0
  uncoveredRanges := 0

end Coverage

/-! ## Annotation classifier -/

namespace Coverage

open AnnotatedLineState_t

/-- C1: a real instruction that was executed, is a branch and was neither
always taken nor never taken is handed to `PutAnnotatedLine` with state
`A_SOURCE` (the state set before the classification), not `A_EXECUTED`; its
annotation text is empty and its identifier is the branch set's id. -/
theorem annotate_branch_both_outcomes (map : CoverageMapBase) (bAddress : Nat)
    (theRanges theBranches : CoverageRanges) (instruction : Instruction)
    (hI : instruction.isInstruction = true)
    (hE : map.wasExecuted (sub32 instruction.address bAddress) = true)
    (hB : map.isBranch (sub32 instruction.address bAddress) = true)
    (hA : map.wasAlwaysTaken (sub32 instruction.address bAddress) = false)
    (hN : map.wasNeverTaken (sub32 instruction.address bAddress) = false) :
    annotate (some map) bAddress theRanges theBranches instruction
        = some (A_SOURCE, [], theBranches.getId instruction.address) ∧
      annotatedLine (some map) bAddress theRanges theBranches instruction
        = some (Event.PutAnnotatedLine A_SOURCE (textLine instruction.line)
            (theBranches.getId instruction.address)) := by
  have h : annotate (some map) bAddress theRanges theBranches instruction
      = some (A_SOURCE, [], theBranches.getId instruction.address) := by
    simp [annotate, hI, hE, hB, hA, hN]
  exact ⟨h, by simp [annotatedLine, h]⟩

/-- The covered branch at address 260 of the example is put out as a plain
source line, with the id of its branch range. -/
theorem annotate_branch_both_outcomes_witness :
    annotate (some exampleMap) 256 exampleRanges exampleBranches exampleBranchInstruction
        = some (A_SOURCE, [], 3) ∧
      annotatedLine (some exampleMap) 256 exampleRanges exampleBranches
          exampleBranchInstruction
        = some (Event.PutAnnotatedLine A_SOURCE (textLine "\tbeq 10c".toList) 3) :=
  annotate_branch_both_outcomes exampleMap 256 exampleRanges exampleBranches
    exampleBranchInstruction rfl (by decide) rfl rfl rfl

/-- C2: a real instruction whose offset `address - baseAddress` the coverage
map reports as not executed gets state `A_NEVER_EXECUTED`, the annotation
`<== NOT EXECUTED` after its text and the id the uncovered-range set gives
for its address, whatever the three branch queries answer. -/
theorem annotate_not_executed (map : CoverageMapBase) (bAddress : Nat)
    (theRanges theBranches : CoverageRanges) (instruction : Instruction)
    (hI : instruction.isInstruction = true)
    (hE : map.wasExecuted (sub32 instruction.address bAddress) = false) :
    annotate (some map) bAddress theRanges theBranches instruction
        = some (A_NEVER_EXECUTED, "<== NOT EXECUTED".toList,
            theRanges.getId instruction.address) ∧
      annotatedLine (some map) bAddress theRanges theBranches instruction
        = some (Event.PutAnnotatedLine A_NEVER_EXECUTED
            (textLine instruction.line ++ "<== NOT EXECUTED".toList)
            (theRanges.getId instruction.address)) := by
  have h : annotate (some map) bAddress theRanges theBranches instruction
      = some (A_NEVER_EXECUTED, "<== NOT EXECUTED".toList,
          theRanges.getId instruction.address) := by
    simp [annotate, hI, hE]
  exact ⟨h, by simp [annotatedLine, h]⟩

/-- The instruction at address 264 of the example (offset 8, never executed,
flagged a branch) is put out as never executed with range id 7. -/
theorem annotate_not_executed_witness :
    annotate (some exampleMap) 256 exampleRanges exampleBranches exampleInstruction
        = some (A_NEVER_EXECUTED, "<== NOT EXECUTED".toList, 7) ∧
      annotatedLine (some exampleMap) 256 exampleRanges exampleBranches exampleInstruction
        = some (Event.PutAnnotatedLine A_NEVER_EXECUTED
            (textLine "\tnop".toList ++ "<== NOT EXECUTED".toList) 7) :=
  annotate_not_executed exampleMap 256 exampleRanges exampleBranches
    exampleInstruction rfl (by decide)

/-- C3: a real instruction that was executed and is a branch carries the id
the uncovered-branch set gives for its address, whichever of the three
sub-cases applies; when `wasAlwaysTaken` holds the state is `A_BRANCH_TAKEN`
with annotation `<== ALWAYS TAKEN` (also when `wasNeverTaken` holds), and when
`wasAlwaysTaken` fails and `wasNeverTaken` holds the state is
`A_BRANCH_NOT_TAKEN` with annotation `<== NEVER TAKEN`. -/
theorem annotate_executed_branch (map : CoverageMapBase) (bAddress : Nat)
    (theRanges theBranches : CoverageRanges) (instruction : Instruction)
    (hI : instruction.isInstruction = true)
    (hE : map.wasExecuted (sub32 instruction.address bAddress) = true)
    (hB : map.isBranch (sub32 instruction.address bAddress) = true) :
    (∃ state suffix,
        annotate (some map) bAddress theRanges theBranches instruction
          = some (state, suffix, theBranches.getId instruction.address) ∧
        annotatedLine (some map) bAddress theRanges theBranches instruction
          = some (Event.PutAnnotatedLine state (textLine instruction.line ++ suffix)
              (theBranches.getId instruction.address))) ∧
      (map.wasAlwaysTaken (sub32 instruction.address bAddress) = true →
        annotatedLine (some map) bAddress theRanges theBranches instruction
          = some (Event.PutAnnotatedLine A_BRANCH_TAKEN
              (textLine instruction.line ++ "<== ALWAYS TAKEN".toList)
              (theBranches.getId instruction.address))) ∧
      (map.wasAlwaysTaken (sub32 instruction.address bAddress) = false →
        map.wasNeverTaken (sub32 instruction.address bAddress) = true →
        annotatedLine (some map) bAddress theRanges theBranches instruction
          = some (Event.PutAnnotatedLine A_BRANCH_NOT_TAKEN
              (textLine instruction.line ++ "<== NEVER TAKEN".toList)
              (theBranches.getId instruction.address))) := by
  refine ⟨?_, ?_, ?_⟩
  · cases hA : map.wasAlwaysTaken (sub32 instruction.address bAddress)
    · cases hN : map.wasNeverTaken (sub32 instruction.address bAddress)
      · exact ⟨A_SOURCE, [], by simp [annotatedLine, annotate, hI, hE, hB, hA, hN]⟩
      · exact ⟨A_BRANCH_NOT_TAKEN, "<== NEVER TAKEN".toList,
          by simp [annotatedLine, annotate, hI, hE, hB, hA, hN]⟩
    · exact ⟨A_BRANCH_TAKEN, "<== ALWAYS TAKEN".toList,
        by simp [annotatedLine, annotate, hI, hE, hB, hA]⟩
  · intro hA
    simp [annotatedLine, annotate, hI, hE, hB, hA]
  · intro hA hN
    simp [annotatedLine, annotate, hI, hE, hB, hA, hN]

/-- In the example branch map the instruction at offset 4 is flagged never
taken only and the one at offset 8 both always and never taken: the first is
put out as never taken and the second as always taken, both with the id of
the branch set. -/
theorem annotate_executed_branch_witness :
    annotatedLine (some exampleBranchMap) 256 exampleRanges exampleBranches
          exampleBranchInstruction
        = some (Event.PutAnnotatedLine A_BRANCH_NOT_TAKEN
            (textLine "\tbeq 10c".toList ++ "<== NEVER TAKEN".toList) 3) ∧
      annotatedLine (some exampleBranchMap) 256 exampleRanges exampleBranches
          exampleInstruction
        = some (Event.PutAnnotatedLine A_BRANCH_TAKEN
            (textLine "\tnop".toList ++ "<== ALWAYS TAKEN".toList) 0) :=
  ⟨(annotate_executed_branch exampleBranchMap 256 exampleRanges exampleBranches
      exampleBranchInstruction rfl rfl rfl).2.2 (by decide) rfl,
    (annotate_executed_branch exampleBranchMap 256 exampleRanges exampleBranches
      exampleInstruction rfl rfl rfl).2.1 (by decide)⟩

/-- C4: a line whose instruction flag is false is put out with state
`A_SOURCE`, identifier 0 and no annotation, whatever the coverage map (present
or not) and the two uncovered sets say about its address; a real instruction
that was executed and is not a branch is put out with state `A_EXECUTED`,
identifier 0 and no annotation. -/
theorem annotate_source_and_executed (theCoverageMap : Option CoverageMapBase)
    (map : CoverageMapBase) (bAddress : Nat)
    (theRanges theBranches : CoverageRanges) (instruction : Instruction) :
    (instruction.isInstruction = false →
        annotate theCoverageMap bAddress theRanges theBranches instruction
          = some (A_SOURCE, [], 0) ∧
        annotatedLine theCoverageMap bAddress theRanges theBranches instruction
          = some (Event.PutAnnotatedLine A_SOURCE (textLine instruction.line) 0)) ∧
      (instruction.isInstruction = true →
        map.wasExecuted (sub32 instruction.address bAddress) = true →
        map.isBranch (sub32 instruction.address bAddress) = false →
        annotate (some map) bAddress theRanges theBranches instruction
          = some (A_EXECUTED, [], 0) ∧
        annotatedLine (some map) bAddress theRanges theBranches instruction
          = some (Event.PutAnnotatedLine A_EXECUTED (textLine instruction.line) 0)) := by
  constructor
  · intro hI
    simp [annotatedLine, annotate, hI]
  · intro hI hE hB
    simp [annotatedLine, annotate, hI, hE, hB]

/-- The source line of the example, at the address of an uncovered range, is
put out as plain source with id 0; the instruction at the same address is put
out as executed with id 0 under the straight-line map. -/
theorem annotate_source_and_executed_witness :
    annotatedLine (some exampleMap) 256 exampleRanges exampleBranches exampleSourceLine
        = some (Event.PutAnnotatedLine A_SOURCE (textLine "f:".toList) 0) ∧
      annotatedLine (some exampleStraightMap) 256 exampleRanges exampleBranches
          exampleInstruction
        = some (Event.PutAnnotatedLine A_EXECUTED (textLine "\tnop".toList) 0) :=
  ⟨((annotate_source_and_executed (some exampleMap) exampleMap 256 exampleRanges
      exampleBranches exampleSourceLine).1 rfl).2,
    ((annotate_source_and_executed none exampleStraightMap 256 exampleRanges
      exampleBranches exampleInstruction).2 rfl rfl rfl).2⟩

end Coverage

/-! ## Numbering of the branch and coverage reports -/

namespace Coverage

theorem numberFrom_nil (start : Nat) : numberFrom start [] = [] := rfl

theorem numberFrom_cons (start : Nat) (f : Nat → Event) (fs : List (Nat → Event)) :
    numberFrom start (f :: fs) = f start :: numberFrom (start + 1) fs := by
  simp [numberFrom, List.enumFrom_cons]

theorem numberFrom_append (start : Nat) (fs gs : List (Nat → Event)) :
    numberFrom start (fs ++ gs) = numberFrom start fs ++ numberFrom (start + fs.length) gs := by
  simp [numberFrom, List.enumFrom_append]

theorem numberFrom_length (start : Nat) (fs : List (Nat → Event)) :
    (numberFrom start fs).length = fs.length := by
  simp [numberFrom]

theorem numberFrom_getElem? (start : Nat) (fs : List (Nat → Event)) (k : Nat) :
    (numberFrom start fs)[k]? = fs[k]?.map (fun f => f (start + k)) := by
  induction fs generalizing start k with
  | nil => simp [numberFrom]
  | cons f fs ih =>
    rw [numberFrom_cons]
    cases k with
    | zero => simp
    | succ k => simp [ih, Nat.add_assoc, Nat.add_comm 1 k]

theorem branchEntries_eq (symbol : String) (ranges : List CoverageRange) (count : Nat) :
    branchEntries symbol ranges count
      = (numberFrom (count + 1)
          (ranges.map (fun range count => Event.PutBranchEntry count symbol range)),
        count + ranges.length) := by
  induction ranges generalizing count with
  | nil => simp [branchEntries, numberFrom_nil]
  | cons range rest ih =>
    simp [branchEntries, ih, numberFrom_cons]
    omega

theorem branchSymbols_eq (symbols : List (String × SymbolInformation)) (count : Nat) :
    branchSymbols symbols count
      = (numberFrom (count + 1) (branchEntriesOf symbols),
        count + (branchEntriesOf symbols).length) := by
  induction symbols generalizing count with
  | nil => simp [branchSymbols, branchEntriesOf, numberFrom_nil]
  | cons s rest ih =>
    obtain ⟨symbol, info⟩ := s
    cases hb : info.uncoveredBranches with
    | none =>
      simp only [branchSymbols, hb, ih]
      simp [branchEntriesOf, hb]
    | some theBranches =>
      cases hs : theBranches.set with
      | nil =>
        simp only [branchSymbols, hb, hs, ih]
        simp [branchEntriesOf, hb, hs]
      | cons r rs =>
        have hsplit : branchEntriesOf ((symbol, info) :: rest)
            = (r :: rs).map (fun range count => Event.PutBranchEntry count symbol range)
              ++ branchEntriesOf rest := by
          simp [branchEntriesOf, hb, hs]
        rw [hsplit, numberFrom_append]
        simp only [branchSymbols, hb, hs, branchEntries_eq, ih]
        simp [Nat.add_assoc, Nat.add_comm, Nat.add_left_comm]

theorem coverageLines_eq (symbol : String) (ranges : List CoverageRange) (count : Nat) :
    coverageLines symbol ranges count
      = (numberFrom count
          (ranges.map (fun range count => Event.PutCoverageLine count symbol range)),
        count + ranges.length) := by
  induction ranges generalizing count with
  | nil => simp [coverageLines, numberFrom_nil]
  | cons range rest ih =>
    simp [coverageLines, ih, numberFrom_cons]
    omega

theorem coverageSymbols_eq (symbols : List (String × SymbolInformation)) (count : Nat) :
    coverageSymbols symbols count
      = (numberFrom count (coverageEntriesOf symbols),
        count + (coverageEntriesOf symbols).length) := by
  induction symbols generalizing count with
  | nil => simp [coverageSymbols, coverageEntriesOf, numberFrom_nil]
  | cons s rest ih =>
    obtain ⟨symbol, info⟩ := s
    cases hr : info.uncoveredRanges with
    | none =>
      have hsplit : coverageEntriesOf ((symbol, info) :: rest)
          = (fun count => Event.putCoverageNoRange count symbol) :: coverageEntriesOf rest := by
        simp [coverageEntriesOf, hr]
      rw [hsplit, numberFrom_cons]
      simp only [coverageSymbols, hr, ih]
      simp [Nat.add_assoc, Nat.add_comm]
    | some theRanges =>
      cases hs : theRanges.set with
      | nil =>
        simp only [coverageSymbols, hr, hs, ih]
        simp [coverageEntriesOf, hr, hs]
      | cons r rs =>
        have hsplit : coverageEntriesOf ((symbol, info) :: rest)
            = (r :: rs).map (fun range count => Event.PutCoverageLine count symbol range)
              ++ coverageEntriesOf rest := by
          simp [coverageEntriesOf, hr, hs]
        rw [hsplit, numberFrom_append]
        simp only [coverageSymbols, hr, hs, coverageLines_eq, ih]
        simp [Nat.add_assoc, Nat.add_comm, Nat.add_left_comm]

end Coverage

/-! ## Branch report and coverage report -/

namespace Coverage

theorem hasBranches_eq_true (symbolsToAnalyze : DesiredSymbols) (branchInfoAvailable : Bool) :
    hasBranches symbolsToAnalyze branchInfoAvailable = true
      ↔ symbolsToAnalyze.branchesFound ≠ 0 ∧ branchInfoAvailable = true := by
  cases branchInfoAvailable <;> simp [hasBranches]

theorem hasBranches_eq_false (symbolsToAnalyze : DesiredSymbols) (branchInfoAvailable : Bool)
    (h : symbolsToAnalyze.branchesFound = 0 ∨ branchInfoAvailable = false) :
    hasBranches symbolsToAnalyze branchInfoAvailable = false := by
  cases branchInfoAvailable <;> simp_all [hasBranches]

/-- C5 (as the code has it): when the branch report is enabled
(`branchesFound != 0` and branch info available) and its stream is open, the
driver makes exactly one `PutBranchEntry` call per range of every symbol's
uncovered-branch set, in symbol-walk order, between the open and the close
hook; the counter is reset to 0 and incremented before each call, so the
first entry carries count 1 and the entry at position `k` (from 0) carries
count `k + 1`. -/
theorem WriteBranchReport_numbering (fileName : String) (symbolsToAnalyze : DesiredSymbols)
    (branchInfoAvailable : Bool)
    (hFound : symbolsToAnalyze.branchesFound ≠ 0)
    (hInfo : branchInfoAvailable = true) :
    WriteBranchReport OpenOutcome.isOpen fileName symbolsToAnalyze branchInfoAvailable
        = ⟨Event.OpenBranchFile fileName true ::
            numberFrom 1 (branchEntriesOf symbolsToAnalyze.symbols) ++
            [Event.CloseBranchFile true], Termination.returned⟩ ∧
      (numberFrom 1 (branchEntriesOf symbolsToAnalyze.symbols)).length
        = (branchEntriesOf symbolsToAnalyze.symbols).length ∧
      ∀ k : Nat, (numberFrom 1 (branchEntriesOf symbolsToAnalyze.symbols))[k]?
        = (branchEntriesOf symbolsToAnalyze.symbols)[k]?.map
            (fun (entry : Nat → Event) => entry (k + 1)) := by
  refine ⟨?_, numberFrom_length _ _, ?_⟩
  · have hb : hasBranches symbolsToAnalyze branchInfoAvailable = true :=
      (hasBranches_eq_true _ _).2 ⟨hFound, hInfo⟩
    subst hInfo
    simp [WriteBranchReport, hb, hFound, branchSymbols_eq]
  · intro k
    rw [numberFrom_getElem?, Nat.add_comm]

/-- The branch report of the example walk: the two uncovered branches of `B`
are entered with counts 1 and 2. -/
theorem WriteBranchReport_numbering_witness :
    WriteBranchReport OpenOutcome.isOpen "branch.txt" exampleDesiredSymbols true
      = ⟨[Event.OpenBranchFile "branch.txt" true,
          Event.PutBranchEntry 1 "B" ⟨260, 263⟩,
          Event.PutBranchEntry 2 "B" ⟨268, 271⟩,
          Event.CloseBranchFile true], Termination.returned⟩ :=
  (WriteBranchReport_numbering "branch.txt" exampleDesiredSymbols true
    (by decide) rfl).1

/-- C5 as stated fails: in the branch report of the example walk the first
entry emitted carries count 1, not count 0. -/
theorem WriteBranchReport_first_count_not_zero :
    (WriteBranchReport OpenOutcome.isOpen "branch.txt" exampleDesiredSymbols true).trace[1]?
        = some (Event.PutBranchEntry 1 "B" ⟨260, 263⟩) ∧
      ¬ ∃ symbol range,
        (WriteBranchReport OpenOutcome.isOpen "branch.txt" exampleDesiredSymbols true).trace[1]?
          = some (Event.PutBranchEntry 0 symbol range) := by
  refine ⟨rfl, ?_⟩
  rintro ⟨symbol, range, h⟩
  have h1 : (WriteBranchReport OpenOutcome.isOpen "branch.txt" exampleDesiredSymbols true).trace[1]?
      = some (Event.PutBranchEntry 1 "B" ⟨260, 263⟩) := rfl
  rw [h1] at h
  injection h with h
  injection h with hcount
  exact absurd hcount (by decide)

/-- C6: the symbol loop of the coverage report starts its counter at 0 and
emits, in symbol-walk order, one `putCoverageNoRange` entry for a symbol
without an uncovered-range set, one `PutCoverageLine` entry per range for a
symbol with a non-empty set and nothing for a symbol with an empty set; the
entry at position `k` (from 0, both kinds counted together) carries count
`k`, and the final counter is the number of entries. For
`[A(never-referenced), B(2 ranges), C(no ranges)]` the counts are 0, 1, 2
and the final counter is 3. -/
theorem WriteCoverageReport_numbering (fileName : String) (symbolsToAnalyze : DesiredSymbols) :
    coverageSymbols symbolsToAnalyze.symbols 0
        = (numberFrom 0 (coverageEntriesOf symbolsToAnalyze.symbols),
            (coverageEntriesOf symbolsToAnalyze.symbols).length) ∧
      (∀ k : Nat, (coverageSymbols symbolsToAnalyze.symbols 0).1[k]?
        = (coverageEntriesOf symbolsToAnalyze.symbols)[k]?.map
            (fun (entry : Nat → Event) => entry k)) ∧
      WriteCoverageReport OpenOutcome.isOpen OpenOutcome.isOpen fileName symbolsToAnalyze
        = ⟨Event.OpenNoRangeFile ("no_range_" ++ fileName) :: Event.OpenCoverageFile fileName ::
            numberFrom 0 (coverageEntriesOf symbolsToAnalyze.symbols) ++
            [Event.CloseNoRangeFile, Event.CloseCoverageFile], Termination.returned⟩ ∧
      coverageSymbols exampleWalk 0
        = ([Event.putCoverageNoRange 0 "A",
            Event.PutCoverageLine 1 "B" ⟨256, 259⟩,
            Event.PutCoverageLine 2 "B" ⟨264, 267⟩], 3) := by
  refine ⟨?_, ?_, ?_, rfl⟩
  · simp [coverageSymbols_eq]
  · intro k
    simp [coverageSymbols_eq, numberFrom_getElem?]
  · simp [WriteCoverageReport, coverageSymbols_eq]

/-- C7: `hasBranches` is true exactly when `branchesFound != 0` and branch
info is available; the open hook and, when the stream is open, the close hook
receive it; and whenever `branchesFound == 0` or branch info is unavailable
both hooks receive `false` and no `PutBranchEntry` call is made, whatever the
symbols' uncovered-branch sets hold. -/
theorem WriteBranchReport_hasBranches (opened : OpenOutcome) (fileName : String)
    (symbolsToAnalyze : DesiredSymbols) (branchInfoAvailable : Bool) :
    (hasBranches symbolsToAnalyze branchInfoAvailable = true
        ↔ symbolsToAnalyze.branchesFound ≠ 0 ∧ branchInfoAvailable = true) ∧
      (WriteBranchReport opened fileName symbolsToAnalyze branchInfoAvailable).trace
        = Event.OpenBranchFile fileName (hasBranches symbolsToAnalyze branchInfoAvailable) ::
            (if opened = OpenOutcome.isOpen then
              (if hasBranches symbolsToAnalyze branchInfoAvailable = true then
                numberFrom 1 (branchEntriesOf symbolsToAnalyze.symbols) else []) ++
              [Event.CloseBranchFile (hasBranches symbolsToAnalyze branchInfoAvailable)]
            else []) ∧
      (symbolsToAnalyze.branchesFound = 0 ∨ branchInfoAvailable = false →
        hasBranches symbolsToAnalyze branchInfoAvailable = false ∧
        (WriteBranchReport OpenOutcome.isOpen fileName symbolsToAnalyze
            branchInfoAvailable).trace
          = [Event.OpenBranchFile fileName false, Event.CloseBranchFile false] ∧
        ∀ count symbol range, Event.PutBranchEntry count symbol range ∉
          (WriteBranchReport opened fileName symbolsToAnalyze branchInfoAvailable).trace) := by
  have htrace : (WriteBranchReport opened fileName symbolsToAnalyze branchInfoAvailable).trace
      = Event.OpenBranchFile fileName (hasBranches symbolsToAnalyze branchInfoAvailable) ::
          (if opened = OpenOutcome.isOpen then
            (if hasBranches symbolsToAnalyze branchInfoAvailable = true then
              numberFrom 1 (branchEntriesOf symbolsToAnalyze.symbols) else []) ++
            [Event.CloseBranchFile (hasBranches symbolsToAnalyze branchInfoAvailable)]
          else []) := by
    cases opened
    · simp [WriteBranchReport]
    · simp [WriteBranchReport]
    · cases hInfo : branchInfoAvailable
      · simp [WriteBranchReport, hasBranches]
      · by_cases hFound : symbolsToAnalyze.branchesFound = 0
        · simp [WriteBranchReport, hasBranches, hFound]
        · simp [WriteBranchReport, hasBranches, hFound, branchSymbols_eq]
  refine ⟨hasBranches_eq_true _ _, htrace, ?_⟩
  intro h
  have hb := hasBranches_eq_false symbolsToAnalyze branchInfoAvailable h
  refine ⟨hb, ?_, ?_⟩
  · rcases h with h | h
    · simp [WriteBranchReport, hasBranches, h]
    · simp [WriteBranchReport, hasBranches, h]
  · intro count symbol range
    rw [htrace, hb]
    cases opened <;> simp

/-- With branch info unavailable the branch report of the example walk is
the open and the close hook with `hasBranches = false` and no entry, although
symbol `B` has two uncovered branches. -/
theorem WriteBranchReport_hasBranches_witness :
    hasBranches exampleDesiredSymbols false = false ∧
      (WriteBranchReport OpenOutcome.isOpen "branch.txt" exampleDesiredSymbols false).trace
        = [Event.OpenBranchFile "branch.txt" false, Event.CloseBranchFile false] ∧
      ∀ count symbol range, Event.PutBranchEntry count symbol range ∉
        (WriteBranchReport OpenOutcome.isOpen "branch.txt" exampleDesiredSymbols false).trace :=
  (WriteBranchReport_hasBranches OpenOutcome.isOpen "branch.txt" exampleDesiredSymbols
    false).2.2 (Or.inr rfl)

end Coverage

/-! ## Summary report -/

namespace Coverage

theorem sub32_one (n : Nat) (h1 : 1 ≤ n) (h2 : n < 2 ^ 32) : sub32 n 1 = n - 1 := by
  unfold sub32
  rw [Nat.mod_eq_of_lt h2]
  norm_num
  omega

theorem sub32_zero_one : sub32 0 1 = 2 ^ 32 - 1 := by
  norm_num [sub32]

/-- With `endAddress = 0xFFFFFFFF` the condition `a <= endAddress` holds for
every `uint32_t` value of `a`: the byte loop never ends. -/
theorem scanBytes_never_ends (theCoverageMap : CoverageMapBase) (fuel : Nat) :
    ∀ a totalBytes notExecuted : Nat, a < 2 ^ 32 →
      scanBytes theCoverageMap (2 ^ 32 - 1) fuel a totalBytes notExecuted = none := by
  induction fuel with
  | zero => intro a totalBytes notExecuted _; rfl
  | succ fuel ih =>
    intro a totalBytes notExecuted ha
    have hle : a ≤ 2 ^ 32 - 1 := by omega
    simp only [scanBytes, hle, if_true]
    exact ih _ _ _ (Nat.mod_lt _ (by norm_num))

/-- The byte loop, `n` offsets before its end and with no counter about to
wrap, ends after `n` more iterations. -/
theorem scanBytes_run (theCoverageMap : CoverageMapBase) (endAddress : Nat) (n : Nat) :
    ∀ fuel a totalBytes notExecuted : Nat,
      a + n = endAddress + 1 → endAddress + 1 < 2 ^ 32 → n < fuel →
      totalBytes + n < 2 ^ 32 → notExecuted + n < 2 ^ 32 →
      scanBytes theCoverageMap endAddress fuel a totalBytes notExecuted
        = some (totalBytes + n,
            notExecuted +
              ((List.range' a n).filter (fun x => !theCoverageMap.wasExecuted x)).length) := by
  induction n with
  | zero =>
    intro fuel a totalBytes notExecuted ha _ hfuel _ _
    obtain ⟨fuel, rfl⟩ : ∃ m, fuel = m + 1 := ⟨fuel - 1, by omega⟩
    have hnot : ¬ a ≤ endAddress := by omega
    simp [scanBytes, hnot]
  | succ n ih =>
    intro fuel a totalBytes notExecuted ha hend hfuel htb hne
    obtain ⟨fuel, rfl⟩ : ∃ m, fuel = m + 1 := ⟨fuel - 1, by omega⟩
    have hle : a ≤ endAddress := by omega
    have ha1 : (a + 1) % 2 ^ 32 = a + 1 := Nat.mod_eq_of_lt (by omega)
    have htb1 : (totalBytes + 1) % 2 ^ 32 = totalBytes + 1 := Nat.mod_eq_of_lt (by omega)
    have hne1 : (notExecuted + 1) % 2 ^ 32 = notExecuted + 1 := Nat.mod_eq_of_lt (by omega)
    simp only [scanBytes, hle, if_true, ha1, htb1, hne1]
    cases hx : theCoverageMap.wasExecuted a
    · simp only [Bool.not_false, if_true]
      rw [ih fuel (a + 1) (totalBytes + 1) (notExecuted + 1) (by omega) hend (by omega)
        (by omega) (by omega)]
      simp [List.range'_succ, hx]
      omega
    · simp only [Bool.not_true, Bool.false_eq_true, if_false]
      rw [ih fuel (a + 1) (totalBytes + 1) notExecuted (by omega) hend (by omega)
        (by omega) (by omega)]
      simp [List.range'_succ, hx]
      omega

theorem notExecutedBytes_le (symbols : List (String × SymbolInformation)) :
    notExecutedBytes symbols ≤ mappedBytes symbols := by
  induction symbols with
  | nil => simp [notExecutedBytes, mappedBytes]
  | cons s rest ih =>
    simp only [notExecutedBytes, mappedBytes, List.map_cons, List.sum_cons] at ih ⊢
    cases hm : s.2.unifiedCoverageMap with
    | none => simpa using ih
    | some theCoverageMap =>
      have h := List.length_filter_le (fun a => !theCoverageMap.wasExecuted a)
        (List.range s.2.sizeInBytes)
      simp only [List.length_range] at h
      simp only
      omega

theorem scanSymbols_run (fuel : Nat) (symbols : List (String × SymbolInformation)) :
    ∀ totalBytes notExecuted : Nat,
      (∀ s ∈ symbols, s.2.unifiedCoverageMap.isSome = true → 1 ≤ s.2.sizeInBytes) →
      totalBytes + mappedBytes symbols < 2 ^ 32 → notExecuted ≤ totalBytes →
      mappedBytes symbols < fuel →
      scanSymbols fuel symbols totalBytes notExecuted
        = some (totalBytes + mappedBytes symbols, notExecuted + notExecutedBytes symbols) := by
  induction symbols with
  | nil =>
    intro totalBytes notExecuted _ _ _ _
    simp [scanSymbols, mappedBytes, notExecutedBytes]
  | cons s rest ih =>
    intro totalBytes notExecuted hsize hsum hle hfuel
    obtain ⟨symbol, info⟩ := s
    have hrest : ∀ s ∈ rest, s.2.unifiedCoverageMap.isSome = true → 1 ≤ s.2.sizeInBytes :=
      fun s hs => hsize s (List.mem_cons_of_mem _ hs)
    have hle_rest := notExecutedBytes_le rest
    cases hm : info.unifiedCoverageMap with
    | none =>
      have e1 : mappedBytes ((symbol, info) :: rest) = mappedBytes rest := by
        simp [mappedBytes, hm]
      have e2 : notExecutedBytes ((symbol, info) :: rest) = notExecutedBytes rest := by
        simp [notExecutedBytes, hm]
      rw [e1] at hsum hfuel
      rw [e1, e2]
      simp only [scanSymbols, hm]
      exact ih totalBytes notExecuted hrest hsum hle hfuel
    | some theCoverageMap =>
      have e1 : mappedBytes ((symbol, info) :: rest) = info.sizeInBytes + mappedBytes rest := by
        simp [mappedBytes, hm]
      have e2 : notExecutedBytes ((symbol, info) :: rest)
          = ((List.range info.sizeInBytes).filter
              (fun a => !theCoverageMap.wasExecuted a)).length + notExecutedBytes rest := by
        simp [notExecutedBytes, hm]
      rw [e1] at hsum hfuel
      have hpos : 1 ≤ info.sizeInBytes :=
        hsize (symbol, info) (List.mem_cons_self _ _) (by simp [hm])
      have hcount := List.length_filter_le (fun a => !theCoverageMap.wasExecuted a)
        (List.range info.sizeInBytes)
      simp only [List.length_range] at hcount
      have hend : sub32 info.sizeInBytes 1 = info.sizeInBytes - 1 :=
        sub32_one _ hpos (by omega)
      have hscan := scanBytes_run theCoverageMap (info.sizeInBytes - 1) info.sizeInBytes
        fuel 0 totalBytes notExecuted (by omega) (by omega) (by omega) (by omega) (by omega)
      rw [← List.range_eq_range'] at hscan
      rw [e1, e2]
      simp only [scanSymbols, hm, hend, hscan]
      rw [ih _ _ hrest (by omega) (by omega) (by omega)]
      simp [Nat.add_assoc]

/-- C8: for a symbol set whose only symbol has `sizeInBytes = 0`, the run of
`WriteSummaryReport` never gets past the byte scan when the symbol has a
unified coverage map (`endAddress` is `0 - 1 = 0xFFFFFFFF`, so no amount of
fuel ends the loop), and writes `totalBytes = 0`, `notExecuted = 0`,
not-executed percentage 0 and executed percentage 100 when it has none;
whatever the walk, totals with `totalBytes = 0` are reported as 0 percent
not executed and 100 percent executed. -/
theorem WriteSummaryReport_zero_size (fuel : Nat) (symbolsToAnalyze : DesiredSymbols)
    (branchInfoAvailable : Bool) (symbol : String) (info : SymbolInformation)
    (hOnly : symbolsToAnalyze.symbols = [(symbol, info)])
    (hSize : info.sizeInBytes = 0) :
    (info.unifiedCoverageMap.isSome = true →
        WriteSummaryReport fuel OpenOutcome.isOpen symbolsToAnalyze branchInfoAvailable
          = none) ∧
      (info.unifiedCoverageMap.isSome = false →
        WriteSummaryReport fuel OpenOutcome.isOpen symbolsToAnalyze branchInfoAvailable
          = some (SummaryOutcome.written
              (summaryReport 0 0 symbolsToAnalyze branchInfoAvailable))) ∧
      (∀ (notExecuted : Nat) (anySymbols : DesiredSymbols),
        (summaryReport 0 notExecuted anySymbols branchInfoAvailable).bytesAnalyzed = 0 ∧
        (summaryReport 0 notExecuted anySymbols branchInfoAvailable).percentageNotExecuted = 0 ∧
        (summaryReport 0 notExecuted anySymbols branchInfoAvailable).percentageExecuted
          = 100) := by
  refine ⟨?_, ?_, ?_⟩
  · intro hmap
    obtain ⟨theCoverageMap, hm⟩ := Option.isSome_iff_exists.1 hmap
    simp only [WriteSummaryReport, hOnly, scanSymbols, hm, hSize, sub32_zero_one]
    rw [scanBytes_never_ends theCoverageMap fuel 0 0 0 (by norm_num)]
  · intro hmap
    have hm : info.unifiedCoverageMap = none := by
      cases h : info.unifiedCoverageMap with
      | none => rfl
      | some m => simp [h] at hmap
    simp [WriteSummaryReport, hOnly, scanSymbols, hm]
  · intro notExecuted anySymbols
    simp [summaryReport]

/-- A symbol set whose only symbol has size 0 and a coverage map: a run with
fuel for 1000 tests of the loop condition has not ended. -/
theorem WriteSummaryReport_zero_size_witness :
    WriteSummaryReport 1000 OpenOutcome.isOpen
      (exampleSummarySymbols [("empty", exampleSized 0 (some exampleStraightMap))]) true
      = none :=
  (WriteSummaryReport_zero_size 1000
    (exampleSummarySymbols [("empty", exampleSized 0 (some exampleStraightMap))]) true
    "empty" (exampleSized 0 (some exampleStraightMap)) rfl rfl).1 rfl

/-- C9: when every symbol with a unified coverage map has `sizeInBytes >= 1`
and the sizes of those symbols sum to less than `2^32`, the scan of
`WriteSummaryReport` ends (fuel above that sum is enough) with `totalBytes`
the sum of `sizeInBytes` over the symbols with a coverage map and
`notExecuted` the number of their offsets `0 .. sizeInBytes - 1` for which
`wasExecuted` is false; symbols without a coverage map add nothing. -/
theorem WriteSummaryReport_scan (fuel : Nat) (symbolsToAnalyze : DesiredSymbols)
    (branchInfoAvailable : Bool)
    (hSize : ∀ s ∈ symbolsToAnalyze.symbols,
      s.2.unifiedCoverageMap.isSome = true → 1 ≤ s.2.sizeInBytes)
    (hSum : mappedBytes symbolsToAnalyze.symbols < 2 ^ 32)
    (hFuel : mappedBytes symbolsToAnalyze.symbols < fuel) :
    scanSymbols fuel symbolsToAnalyze.symbols 0 0
        = some (mappedBytes symbolsToAnalyze.symbols,
            notExecutedBytes symbolsToAnalyze.symbols) ∧
      WriteSummaryReport fuel OpenOutcome.isOpen symbolsToAnalyze branchInfoAvailable
        = some (SummaryOutcome.written
            (summaryReport (mappedBytes symbolsToAnalyze.symbols)
              (notExecutedBytes symbolsToAnalyze.symbols) symbolsToAnalyze
              branchInfoAvailable)) := by
  have h := scanSymbols_run fuel symbolsToAnalyze.symbols 0 0 hSize (by omega)
    (Nat.le_refl 0) hFuel
  simp only [Nat.zero_add] at h
  exact ⟨h, by simp [WriteSummaryReport, h]⟩

/-- A walk of a 10-byte symbol whose offset 8 was not executed, a symbol of
5 bytes without a coverage map and a fully executed 4-byte symbol: 14 bytes
are counted, 1 of them not executed. -/
theorem WriteSummaryReport_scan_witness :
    scanSymbols 20
      (exampleSummarySymbols
        [("f", exampleSized 10 (some exampleMap)), ("g", exampleSized 5 none),
          ("h", exampleSized 4 (some exampleStraightMap))]).symbols 0 0
      = some (14, 1) :=
  (WriteSummaryReport_scan 20
    (exampleSummarySymbols
      [("f", exampleSized 10 (some exampleMap)), ("g", exampleSized 5 none),
        ("h", exampleSized 4 (some exampleStraightMap))]) true
    (by decide) (by decide) (by decide)).1

theorem branch_sums_of_bounds (alwaysTaken neverTaken notExecuted found : Nat)
    (hPaths : alwaysTaken + neverTaken + 2 * notExecuted < 2 ^ 32)
    (hTotal : 2 * found < 2 ^ 32) :
    add32 (add32 alwaysTaken neverTaken) (mul32 notExecuted 2)
        = alwaysTaken + neverTaken + 2 * notExecuted ∧
      mul32 found 2 = 2 * found := by
  simp only [add32, mul32]
  omega

theorem summaryReport_branches_of_bounds (totalBytes notExecuted : Nat)
    (symbolsToAnalyze : DesiredSymbols)
    (hFound : 0 < symbolsToAnalyze.branchesFound)
    (hPaths : symbolsToAnalyze.branchesAlwaysTaken + symbolsToAnalyze.branchesNeverTaken +
      2 * symbolsToAnalyze.branchesNotExecuted < 2 ^ 32)
    (hTotal : 2 * symbolsToAnalyze.branchesFound < 2 ^ 32) :
    ∃ b : BranchSummary,
      (summaryReport totalBytes notExecuted symbolsToAnalyze true).branches = some b ∧
      b.uncoveredBranchPaths
        = symbolsToAnalyze.branchesAlwaysTaken + symbolsToAnalyze.branchesNeverTaken +
            2 * symbolsToAnalyze.branchesNotExecuted ∧
      b.totalBranchPaths = 2 * symbolsToAnalyze.branchesFound ∧
      b.percentageBranchPathsCovered
        = 100 - 100 *
            ((symbolsToAnalyze.branchesAlwaysTaken + symbolsToAnalyze.branchesNeverTaken +
              2 * symbolsToAnalyze.branchesNotExecuted : Nat) : ℚ) /
            ((2 * symbolsToAnalyze.branchesFound : Nat) : ℚ) := by
  have hne : symbolsToAnalyze.branchesFound ≠ 0 := by omega
  obtain ⟨hsum, hprod⟩ := branch_sums_of_bounds _ _ _ _ hPaths hTotal
  refine ⟨_, by simp [summaryReport, hne]; rfl, ?_, ?_, ?_⟩
  · exact hsum
  · exact hprod
  · simp only [hsum]
    push_cast
    ring

/-- C10 (as the code has it): whenever `branchesFound > 0`, branch info is
available and the `unsigned int` sums `alwaysTaken + neverTaken +
2*notExecuted` and `2*branchesFound` stay below `2^32`, the branch lines of
the summary are: uncovered branch paths `alwaysTaken + neverTaken +
2*notExecuted`, total branch paths `2*branchesFound`, percentage of branch
paths covered `100 - 100*(alwaysTaken + neverTaken +
2*notExecuted)/(2*branchesFound)` as an exact rational, for any totals of
the byte scan; and a run of `WriteSummaryReport` with the stream open whose
byte scan ends (symbols with a coverage map have size at least 1, byte total
below `2^32`) writes a summary with these values. For `branchesFound=10,
alwaysTaken=2, neverTaken=1, notExecuted=1` the run writes 5 uncovered paths
of 20 and 75 percent. -/
theorem summaryReport_branch_paths (fuel : Nat)
    (symbolsToAnalyze : DesiredSymbols) (branchInfoAvailable : Bool)
    (hFound : 0 < symbolsToAnalyze.branchesFound)
    (hInfo : branchInfoAvailable = true)
    (hPaths : symbolsToAnalyze.branchesAlwaysTaken + symbolsToAnalyze.branchesNeverTaken +
      2 * symbolsToAnalyze.branchesNotExecuted < 2 ^ 32)
    (hTotal : 2 * symbolsToAnalyze.branchesFound < 2 ^ 32) :
    (∀ totalBytes notExecuted : Nat, ∃ b : BranchSummary,
        (summaryReport totalBytes notExecuted symbolsToAnalyze branchInfoAvailable).branches
          = some b ∧
        b.uncoveredBranchPaths
          = symbolsToAnalyze.branchesAlwaysTaken + symbolsToAnalyze.branchesNeverTaken +
              2 * symbolsToAnalyze.branchesNotExecuted ∧
        b.totalBranchPaths = 2 * symbolsToAnalyze.branchesFound ∧
        b.percentageBranchPathsCovered
          = 100 - 100 *
              ((symbolsToAnalyze.branchesAlwaysTaken + symbolsToAnalyze.branchesNeverTaken +
                2 * symbolsToAnalyze.branchesNotExecuted : Nat) : ℚ) /
              ((2 * symbolsToAnalyze.branchesFound : Nat) : ℚ)) ∧
      ((∀ s ∈ symbolsToAnalyze.symbols,
          s.2.unifiedCoverageMap.isSome = true → 1 ≤ s.2.sizeInBytes) →
        mappedBytes symbolsToAnalyze.symbols < 2 ^ 32 →
        mappedBytes symbolsToAnalyze.symbols < fuel →
        ∃ (report : SummaryReport) (b : BranchSummary),
          WriteSummaryReport fuel OpenOutcome.isOpen symbolsToAnalyze branchInfoAvailable
            = some (SummaryOutcome.written report) ∧
          report.branches = some b ∧
          b.uncoveredBranchPaths
            = symbolsToAnalyze.branchesAlwaysTaken + symbolsToAnalyze.branchesNeverTaken +
                2 * symbolsToAnalyze.branchesNotExecuted ∧
          b.totalBranchPaths = 2 * symbolsToAnalyze.branchesFound ∧
          b.percentageBranchPathsCovered
            = 100 - 100 *
                ((symbolsToAnalyze.branchesAlwaysTaken + symbolsToAnalyze.branchesNeverTaken +
                  2 * symbolsToAnalyze.branchesNotExecuted : Nat) : ℚ) /
                ((2 * symbolsToAnalyze.branchesFound : Nat) : ℚ)) ∧
      (∃ (report : SummaryReport) (b : BranchSummary),
        WriteSummaryReport 20 OpenOutcome.isOpen (exampleSummarySymbols exampleSizedWalk) true
          = some (SummaryOutcome.written report) ∧
        report.bytesAnalyzed = 14 ∧ report.bytesNotExecuted = 1 ∧
        report.branches = some b ∧
        b.uncoveredBranchPaths = 5 ∧ b.totalBranchPaths = 20 ∧
        b.percentageBranchPathsCovered = 75) := by
  subst hInfo
  refine ⟨?_, ?_, ?_⟩
  · intro totalBytes notExecuted
    exact summaryReport_branches_of_bounds totalBytes notExecuted symbolsToAnalyze hFound
      hPaths hTotal
  · intro hSize hSum hFuel
    have hscan := scanSymbols_run fuel symbolsToAnalyze.symbols 0 0 hSize (by omega)
      (Nat.le_refl 0) hFuel
    simp only [Nat.zero_add] at hscan
    obtain ⟨b, hb, h1, h2, h3⟩ := summaryReport_branches_of_bounds
      (mappedBytes symbolsToAnalyze.symbols) (notExecutedBytes symbolsToAnalyze.symbols)
      symbolsToAnalyze hFound hPaths hTotal
    exact ⟨_, b, by simp [WriteSummaryReport, hscan], hb, h1, h2, h3⟩
  · have hscan := scanSymbols_run 20 (exampleSummarySymbols exampleSizedWalk).symbols 0 0
      (by decide) (by decide) (Nat.le_refl 0) (by decide)
    simp only [Nat.zero_add] at hscan
    obtain ⟨b, hb, h1, h2, h3⟩ := summaryReport_branches_of_bounds
      (mappedBytes (exampleSummarySymbols exampleSizedWalk).symbols)
      (notExecutedBytes (exampleSummarySymbols exampleSizedWalk).symbols)
      (exampleSummarySymbols exampleSizedWalk) (by decide) (by decide) (by decide)
    refine ⟨_, b, by simp [WriteSummaryReport, hscan], rfl, rfl, hb, h1, h2, ?_⟩
    rw [h3]
    norm_num [exampleSummarySymbols]

/-- The run of `WriteSummaryReport` on the walk of three sized symbols with
`branchesFound=10, alwaysTaken=2, neverTaken=1, notExecuted=1` writes a
summary with 5 uncovered branch paths of 20, 75 percent covered. -/
theorem summaryReport_branch_paths_witness :
    ∃ (report : SummaryReport) (b : BranchSummary),
      WriteSummaryReport 20 OpenOutcome.isOpen (exampleSummarySymbols exampleSizedWalk) true
        = some (SummaryOutcome.written report) ∧
      report.branches = some b ∧
      b.uncoveredBranchPaths = 5 ∧ b.totalBranchPaths = 20 ∧
      b.percentageBranchPathsCovered = 75 := by
  obtain ⟨report, b, hrun, hb, hu, ht, hp⟩ :=
    (summaryReport_branch_paths 20 (exampleSummarySymbols exampleSizedWalk) true
      (by decide) rfl (by decide) (by decide)).2.1 (by decide) (by decide) (by decide)
  refine ⟨report, b, hrun, hb, hu, ht, ?_⟩
  rw [hp]
  norm_num [exampleSummarySymbols]

/-- C10 as stated fails: with `branchesFound = 4294967294` and
`notExecuted = 2147483649` (and no branch always or never taken) the run of
`WriteSummaryReport` on the empty walk writes 4294967292 total branch paths,
not `2*branchesFound`, and 2 uncovered branch paths, not `2*notExecuted`. -/
theorem summaryReport_branch_paths_wrap :
    ∃ (report : SummaryReport) (b : BranchSummary),
      WriteSummaryReport 1 OpenOutcome.isOpen exampleManyBranches true
        = some (SummaryOutcome.written report) ∧
      report.branches = some b ∧
      b.totalBranchPaths = 4294967292 ∧
      b.totalBranchPaths ≠ 2 * exampleManyBranches.branchesFound ∧
      b.uncoveredBranchPaths = 2 ∧
      b.uncoveredBranchPaths
        ≠ exampleManyBranches.branchesAlwaysTaken + exampleManyBranches.branchesNeverTaken +
            2 * exampleManyBranches.branchesNotExecuted := by
  refine ⟨summaryReport 0 0 exampleManyBranches true, _, rfl, rfl, ?_, ?_, ?_, ?_⟩ <;>
    decide

end Coverage

/-! ## Tab expansion -/

namespace Coverage

theorem expand_tabs_eq_state (input : List Char) :
    expand_tabs input = (expand_tabs_state input).1 := rfl

theorem expand_tabs_state_snoc (pre : List Char) (c : Char) :
    expand_tabs_state (pre ++ [c])
      = if c = '\t' then
          ((expand_tabs_state pre).1 ++ List.replicate (4 - (expand_tabs_state pre).2 % 4) ' ',
            (expand_tabs_state pre).2 + (4 - (expand_tabs_state pre).2 % 4))
        else
          ((expand_tabs_state pre).1 ++ [c], (expand_tabs_state pre).2 + 1) := by
  simp only [expand_tabs_state, List.foldl_append, List.foldl_cons, List.foldl_nil]

/-- The counter `i` of `expand_tabs` is the length of `expanded`. -/
theorem expand_tabs_state_column (input : List Char) :
    (expand_tabs_state input).2 = (expand_tabs input).length := by
  induction input using List.reverseRecOn with
  | nil => rfl
  | append_singleton pre c ih =>
    rw [expand_tabs_eq_state] at ih ⊢
    rw [expand_tabs_state_snoc]
    split
    · simp [ih]
    · simp [ih]

theorem expand_tabs_snoc_tab (pre : List Char) :
    expand_tabs (pre ++ ['\t'])
      = expand_tabs pre ++ List.replicate (4 - (expand_tabs pre).length % 4) ' ' := by
  rw [expand_tabs_eq_state, expand_tabs_state_snoc, expand_tabs_state_column]
  simp [expand_tabs_eq_state]

theorem expand_tabs_snoc_char (pre : List Char) (c : Char) (hc : c ≠ '\t') :
    expand_tabs (pre ++ [c]) = expand_tabs pre ++ [c] := by
  rw [expand_tabs_eq_state, expand_tabs_state_snoc]
  simp [hc, expand_tabs_eq_state]

theorem expand_tabs_append (pre post : List Char) :
    ∃ rest, expand_tabs (pre ++ post) = expand_tabs pre ++ rest := by
  induction post generalizing pre with
  | nil => exact ⟨[], by simp⟩
  | cons c post ih =>
    obtain ⟨rest, hrest⟩ := ih (pre ++ [c])
    rw [List.append_assoc, List.singleton_append] at hrest
    by_cases hc : c = '\t'
    · subst hc
      rw [expand_tabs_snoc_tab] at hrest
      exact ⟨_, by rw [hrest, List.append_assoc]⟩
    · rw [expand_tabs_snoc_char pre c hc] at hrest
      exact ⟨_, by rw [hrest, List.append_assoc]⟩

/-- Every character of the output of `expand_tabs` is a space or a
character of the input other than the tab. -/
theorem mem_expand_tabs (input : List Char) (x : Char) (hx : x ∈ expand_tabs input) :
    x = ' ' ∨ (x ∈ input ∧ x ≠ '\t') := by
  induction input using List.reverseRecOn with
  | nil => simp [expand_tabs] at hx
  | append_singleton pre c ih =>
    by_cases hc : c = '\t'
    · subst hc
      rw [expand_tabs_snoc_tab, List.mem_append] at hx
      rcases hx with hx | hx
      · rcases ih hx with h | h
        · exact Or.inl h
        · exact Or.inr ⟨List.mem_append_left _ h.1, h.2⟩
      · exact Or.inl (List.eq_of_mem_replicate hx)
    · rw [expand_tabs_snoc_char pre c hc, List.mem_append] at hx
      rcases hx with hx | hx
      · rcases ih hx with h | h
        · exact Or.inl h
        · exact Or.inr ⟨List.mem_append_left _ h.1, h.2⟩
      · rw [List.mem_singleton] at hx
        subst hx
        exact Or.inr ⟨by simp, hc⟩

theorem expand_tabs_no_tab (input : List Char) : '\t' ∉ expand_tabs input := by
  intro h
  rcases mem_expand_tabs input '\t' h with h | h
  · exact absurd h (by decide)
  · exact h.2 rfl

theorem expand_tabs_of_no_tab (input : List Char) (h : '\t' ∉ input) :
    expand_tabs input = input := by
  induction input using List.reverseRecOn with
  | nil => rfl
  | append_singleton pre c ih =>
    have hc : c ≠ '\t' := fun e => h (by simp [e])
    have hpre : '\t' ∉ pre := fun e => h (List.mem_append_left _ e)
    rw [expand_tabs_snoc_char pre c hc, ih hpre]

/-- C11: `expand_tabs` reads its input left to right; the output for a
prefix of the input is a prefix of the output. A tab is replaced by `n`
spaces, `1 <= n <= 4`, such that the output up to and including them has a
length that is a multiple of 4; any other character is appended unchanged,
which lengthens the output, and with it the column counter `i`, by exactly
one. -/
theorem expand_tabs_columns (pre post : List Char) (c : Char) :
    expand_tabs [] = [] ∧
      (expand_tabs_state pre).2 = (expand_tabs pre).length ∧
      (c = '\t' → ∃ n, 1 ≤ n ∧ n ≤ 4 ∧
        expand_tabs (pre ++ [c]) = expand_tabs pre ++ List.replicate n ' ' ∧
        (expand_tabs (pre ++ [c])).length % 4 = 0) ∧
      (c ≠ '\t' →
        expand_tabs (pre ++ [c]) = expand_tabs pre ++ [c] ∧
        (expand_tabs_state (pre ++ [c])).2 = (expand_tabs_state pre).2 + 1) ∧
      ∃ rest, expand_tabs (pre ++ post) = expand_tabs pre ++ rest := by
  refine ⟨rfl, expand_tabs_state_column pre, ?_, ?_, expand_tabs_append pre post⟩
  · intro hc
    subst hc
    refine ⟨4 - (expand_tabs pre).length % 4, ?_, ?_, expand_tabs_snoc_tab pre, ?_⟩
    · omega
    · omega
    · rw [expand_tabs_snoc_tab, List.length_append, List.length_replicate]
      omega
  · intro hc
    refine ⟨expand_tabs_snoc_char pre c hc, ?_⟩
    rw [expand_tabs_state_snoc]
    simp [hc]

/-- The tab after `ab` is replaced by two spaces, the tab after `abcd` by
four, and the `c` after `ab` is copied. -/
theorem expand_tabs_columns_witness :
    expand_tabs "ab\tc".toList = "ab  c".toList ∧
      expand_tabs "abcd\t".toList = "abcd    ".toList ∧
      expand_tabs ("ab".toList ++ ['c']) = expand_tabs "ab".toList ++ ['c'] :=
  ⟨by decide, by decide,
    ((expand_tabs_columns "ab".toList [] 'c').2.2.2.1 (by decide)).1⟩

/-- C12: the output of `expand_tabs` contains no tab, `expand_tabs` leaves
a tab-free string unchanged, and so expanding twice is the same as expanding
once. -/
theorem expand_tabs_idempotent (s : List Char) :
    '\t' ∉ expand_tabs s ∧
      expand_tabs (expand_tabs s) = expand_tabs s ∧
      ('\t' ∉ s → expand_tabs s = s) :=
  ⟨expand_tabs_no_tab s, expand_tabs_of_no_tab _ (expand_tabs_no_tab s),
    expand_tabs_of_no_tab s⟩

/-- Expanding `a<tab>bc<tab>` gives `a   bc  `, which expands to itself. -/
theorem expand_tabs_idempotent_witness :
    expand_tabs "a\tbc\t".toList = "a   bc  ".toList ∧
      expand_tabs (expand_tabs "a\tbc\t".toList) = expand_tabs "a\tbc\t".toList ∧
      expand_tabs "a   bc  ".toList = "a   bc  ".toList :=
  ⟨by decide, (expand_tabs_idempotent "a\tbc\t".toList).2.1,
    (expand_tabs_idempotent "a   bc  ".toList).2.2 (by decide)⟩

end Coverage

/-! ## Line formatting -/

namespace Coverage

theorem c_str_of_no_nul (s : List Char) (h : Char.ofNat 0 ∉ s) : c_str s = s := by
  unfold c_str
  rw [List.takeWhile_eq_self_iff]
  intro x hx
  have hne : x ≠ Char.ofNat 0 := fun e => h (e ▸ hx)
  simpa using hne

theorem c_str_length_le (s : List Char) : (c_str s).length ≤ s.length := by
  unfold c_str
  exact (List.takeWhile_sublist _).length_le

theorem expand_tabs_no_nul (line : List Char) (h : Char.ofNat 0 ∉ line) :
    Char.ofNat 0 ∉ expand_tabs line := by
  intro hx
  rcases mem_expand_tabs line _ hx with h1 | h1
  · exact absurd h1 (by decide)
  · exact h h1.1

theorem textLine_length (line : List Char) :
    (textLine line).length = min (max (c_str (expand_tabs line)).length 90) 150 := by
  simp only [textLine, setwLeft, LINE_LENGTH, List.length_take, List.length_append,
    List.length_replicate]
  omega

theorem annotatedLine_of_annotate (theCoverageMap : Option CoverageMapBase) (bAddress : Nat)
    (theRanges theBranches : CoverageRanges) (instruction : Instruction)
    (state : AnnotatedLineState_t) (suffix : List Char) (id : Nat)
    (h : annotate theCoverageMap bAddress theRanges theBranches instruction
      = some (state, suffix, id)) :
    annotatedLine theCoverageMap bAddress theRanges theBranches instruction
      = some (Event.PutAnnotatedLine state (textLine instruction.line ++ suffix) id) := by
  simp [annotatedLine, h]

theorem annotate_isSome (map : CoverageMapBase) (bAddress : Nat)
    (theRanges theBranches : CoverageRanges) (instruction : Instruction) :
    ∃ state suffix id, annotate (some map) bAddress theRanges theBranches instruction
      = some (state, suffix, id) := by
  simp only [annotate]
  split_ifs <;> exact ⟨_, _, _, rfl⟩

/-- C13: for a source line without a NUL character, the text part of the
formatted line is the first 150 characters of the tab-expanded text padded
on the right with spaces to 90 characters; its length is
`min(max(len(expand_tabs(line)), 90), 150)`, at most 150; and the line put
out for an instruction with this text is the text part followed by the
annotation text of the classification, unchanged. -/
theorem textLine_format (line : List Char) (hNul : Char.ofNat 0 ∉ line) :
    textLine line
        = (expand_tabs line ++
            List.replicate (90 - (expand_tabs line).length) ' ').take 150 ∧
      (textLine line).length = min (max (expand_tabs line).length 90) 150 ∧
      (textLine line).length ≤ 150 ∧
      ∀ (map : CoverageMapBase) (bAddress : Nat) (theRanges theBranches : CoverageRanges)
        (isInstruction : Bool) (address : Nat),
        ∃ state suffix id,
          annotate (some map) bAddress theRanges theBranches ⟨isInstruction, address, line⟩
            = some (state, suffix, id) ∧
          annotatedLine (some map) bAddress theRanges theBranches
              ⟨isInstruction, address, line⟩
            = some (Event.PutAnnotatedLine state (textLine line ++ suffix) id) := by
  have hc : c_str (expand_tabs line) = expand_tabs line :=
    c_str_of_no_nul _ (expand_tabs_no_nul line hNul)
  have hlen := textLine_length line
  rw [hc] at hlen
  refine ⟨?_, hlen, by rw [hlen]; omega, ?_⟩
  · simp [textLine, setwLeft, LINE_LENGTH, hc]
  · intro map bAddress theRanges theBranches isInstruction address
    obtain ⟨state, suffix, id, h⟩ :=
      annotate_isSome map bAddress theRanges theBranches ⟨isInstruction, address, line⟩
    exact ⟨state, suffix, id, h, annotatedLine_of_annotate _ _ _ _ _ _ _ _ h⟩

/-- The text part of the line `<tab>nop` is `    nop` followed by 83
spaces, 90 characters in all. -/
theorem textLine_format_witness :
    textLine "\tnop".toList = "    nop".toList ++ List.replicate 83 ' ' ∧
      (textLine "\tnop".toList).length = 90 :=
  ⟨(textLine_format "\tnop".toList (by decide)).1.trans (by decide),
    (textLine_format "\tnop".toList (by decide)).2.1.trans (by decide)⟩

/-- C14 (as the code has it): the annotation text begins at the length of
the text part, which is 90 for every source line whose tab-expanded text has
at most 90 characters; any two such lines have it at the same offset. -/
theorem textLine_alignment (line1 line2 : List Char)
    (h1 : (expand_tabs line1).length ≤ 90) (h2 : (expand_tabs line2).length ≤ 90) :
    (textLine line1).length = 90 ∧ (textLine line2).length = 90 ∧
      ∀ suffix1 suffix2 : List Char,
        (textLine line1 ++ suffix1).drop 90 = suffix1 ∧
        (textLine line2 ++ suffix2).drop 90 = suffix2 := by
  have l1 : (textLine line1).length = 90 := by
    have := c_str_length_le (expand_tabs line1)
    rw [textLine_length]; omega
  have l2 : (textLine line2).length = 90 := by
    have := c_str_length_le (expand_tabs line2)
    rw [textLine_length]; omega
  refine ⟨l1, l2, ?_⟩
  intro suffix1 suffix2
  constructor
  · rw [← l1, List.drop_left]
  · rw [← l2, List.drop_left]

/-- The lines `f:` and `<tab>nop` both have their annotation text at
offset 90. -/
theorem textLine_alignment_witness :
    (textLine "f:".toList).length = 90 ∧ (textLine "\tnop".toList).length = 90 :=
  ⟨(textLine_alignment "f:".toList "\tnop".toList (by decide) (by decide)).1,
    (textLine_alignment "f:".toList "\tnop".toList (by decide) (by decide)).2.1⟩

/-- C14 as stated fails: the annotation text of the line `f:` begins at
offset 90 and that of a line of 100 characters `x` at offset 100. -/
theorem textLine_alignment_fails :
    (textLine "f:".toList).length = 90 ∧
      (textLine (List.replicate 100 'x')).length = 100 ∧
      (textLine "f:".toList).length ≠ (textLine (List.replicate 100 'x')).length := by
  have hx : expand_tabs (List.replicate 100 'x') = List.replicate 100 'x' :=
    expand_tabs_of_no_tab _ (by
      intro h
      exact absurd (List.eq_of_mem_replicate h) (by decide))
  have hc : c_str (List.replicate 100 'x') = List.replicate 100 'x' :=
    c_str_of_no_nul _ (by
      intro h
      exact absurd (List.eq_of_mem_replicate h) (by decide))
  have l1 : (textLine "f:".toList).length = 90 := by decide
  have l2 : (textLine (List.replicate 100 'x')).length = 100 := by
    rw [textLine_length, hx, hc, List.length_replicate]
    decide
  exact ⟨l1, l2, by rw [l1, l2]; decide⟩

end Coverage

/-! ## Walk of the annotated report -/

namespace Coverage

theorem annotatedLines_of_map (map : CoverageMapBase) (bAddress : Nat)
    (theRanges theBranches : CoverageRanges) (instructions : List Instruction) :
    annotatedLines (some map) bAddress theRanges theBranches instructions
        = (instructions.filterMap (annotatedLine (some map) bAddress theRanges theBranches),
            true) ∧
      instructions.map (annotatedLine (some map) bAddress theRanges theBranches)
        = (instructions.filterMap
            (annotatedLine (some map) bAddress theRanges theBranches)).map some := by
  induction instructions with
  | nil => exact ⟨rfl, rfl⟩
  | cons instruction rest ih =>
    obtain ⟨state, suffix, id, h⟩ :=
      annotate_isSome map bAddress theRanges theBranches instruction
    have hl := annotatedLine_of_annotate _ _ _ _ _ _ _ _ h
    constructor
    · simp [annotatedLines, hl, ih.1, List.filterMap_cons]
    · simp [hl, ih.2, List.filterMap_cons]

theorem annotatedSymbols_of_invariant (symbols : List (String × SymbolInformation))
    (hPair : ∀ s ∈ symbols, s.2.uncoveredRanges.isSome = s.2.uncoveredBranches.isSome)
    (hMap : ∀ s ∈ symbols, skipsSymbol s.2 = false → s.2.unifiedCoverageMap.isSome = true) :
    annotatedSymbols symbols
      = ⟨symbols.flatMap annotatedBlockOf ++ [Event.CloseAnnotatedFile],
          Termination.returned⟩ := by
  induction symbols with
  | nil => rfl
  | cons s rest ih =>
    obtain ⟨symbol, info⟩ := s
    have ih1 := ih (fun s hs => hPair s (List.mem_cons_of_mem _ hs))
      (fun s hs => hMap s (List.mem_cons_of_mem _ hs))
    have hp : info.uncoveredRanges.isSome = info.uncoveredBranches.isSome :=
      hPair (symbol, info) (List.mem_cons_self _ _)
    have hm : skipsSymbol info = false → info.unifiedCoverageMap.isSome = true :=
      hMap (symbol, info) (List.mem_cons_self _ _)
    cases hr : info.uncoveredRanges with
    | none =>
      cases hb : info.uncoveredBranches with
      | none => simp [annotatedSymbols, annotatedBlockOf, hr, hb, ih1]
      | some theBranches => simp [hr, hb] at hp
    | some theRanges =>
      cases hb : info.uncoveredBranches with
      | none => simp [hr, hb] at hp
      | some theBranches =>
        by_cases he : (theRanges.set.isEmpty && theBranches.set.isEmpty) = true
        · simp [annotatedSymbols, annotatedBlockOf, skipsSymbol, hr, hb, he, ih1]
        · have hskip : skipsSymbol info = false := by
            simpa [skipsSymbol, hr, hb] using he
          obtain ⟨map, hmap⟩ := Option.isSome_iff_exists.1 (hm hskip)
          have hlines := (annotatedLines_of_map map info.baseAddress theRanges theBranches
            info.instructions).1
          simp [annotatedSymbols, annotatedBlockOf, skipsSymbol, hr, hb, he, ih1, hmap,
            hlines]

/-- C15 (as the code has it): for a walk in which every symbol has its two
uncovered sets both present or both absent, and every symbol that is not
skipped has a unified coverage map, `WriteAnnotatedReport` (stream open)
returns after the open hook, the blocks of the symbols in walk order and the
close hook. The block of a symbol whose sets are both absent or both empty
is empty; the block of any other symbol (one with an empty range set and a
non-empty branch set too) is `AnnotatedStart`, one `PutAnnotatedLine` per
instruction in instruction order, `AnnotatedEnd`, so it has as many lines as
the symbol has instructions. -/
theorem WriteAnnotatedReport_walk (fileName : String) (symbolsToAnalyze : DesiredSymbols)
    (hPair : ∀ s ∈ symbolsToAnalyze.symbols,
      s.2.uncoveredRanges.isSome = s.2.uncoveredBranches.isSome)
    (hMap : ∀ s ∈ symbolsToAnalyze.symbols, skipsSymbol s.2 = false →
      s.2.unifiedCoverageMap.isSome = true) :
    WriteAnnotatedReport OpenOutcome.isOpen fileName symbolsToAnalyze
        = ⟨Event.OpenAnnotatedFile fileName ::
            symbolsToAnalyze.symbols.flatMap annotatedBlockOf ++
            [Event.CloseAnnotatedFile], Termination.returned⟩ ∧
      ∀ s ∈ symbolsToAnalyze.symbols,
        (skipsSymbol s.2 = true → annotatedBlockOf s = []) ∧
        (skipsSymbol s.2 = false →
          ∃ theRanges theBranches lines,
            s.2.uncoveredRanges = some theRanges ∧
            s.2.uncoveredBranches = some theBranches ∧
            annotatedBlockOf s = Event.AnnotatedStart :: lines ++ [Event.AnnotatedEnd] ∧
            lines.length = s.2.instructions.length ∧
            s.2.instructions.map
                (annotatedLine s.2.unifiedCoverageMap s.2.baseAddress theRanges theBranches)
              = lines.map some) := by
  constructor
  · simp [WriteAnnotatedReport, annotatedSymbols_of_invariant _ hPair hMap]
  · intro s hs
    obtain ⟨symbol, info⟩ := s
    have hp : info.uncoveredRanges.isSome = info.uncoveredBranches.isSome :=
      hPair (symbol, info) hs
    have hm : skipsSymbol info = false → info.unifiedCoverageMap.isSome = true :=
      hMap (symbol, info) hs
    cases hr : info.uncoveredRanges with
    | none =>
      cases hb : info.uncoveredBranches with
      | none => simp [annotatedBlockOf, skipsSymbol, hr, hb]
      | some theBranches => simp [hr, hb] at hp
    | some theRanges =>
      cases hb : info.uncoveredBranches with
      | none => simp [hr, hb] at hp
      | some theBranches =>
        constructor
        · intro hskip
          have hskip1 : skipsSymbol info = true := hskip
          simp [annotatedBlockOf, hr, hb, hskip1]
        · intro hskip
          have hskip1 : skipsSymbol info = false := hskip
          obtain ⟨map, hmap⟩ := Option.isSome_iff_exists.1 (hm hskip1)
          have hl := (annotatedLines_of_map map info.baseAddress theRanges theBranches
            info.instructions).2
          refine ⟨theRanges, theBranches,
            info.instructions.filterMap
              (annotatedLine (some map) info.baseAddress theRanges theBranches),
            rfl, rfl, ?_, ?_, ?_⟩
          · simp [annotatedBlockOf, hr, hb, hskip1, hmap]
          · have := congrArg List.length hl
            simpa using this.symm
          · simpa [hmap] using hl

/-- C15 as stated fails: symbol `D` of the broken walk has an uncovered-range
set (not empty) and no uncovered-branch set, so it is not a skipped symbol,
yet the run makes no call for it and ends in the assertion failure; and for
the symbol with both sets and no unified coverage map the run makes
`AnnotatedStart` and the first of its two lines and ends there, without the
second line and without `AnnotatedEnd`. -/
theorem WriteAnnotatedReport_walk_fails :
    skipsSymbol (exampleSymbol (some exampleRanges) none) = false ∧
      WriteAnnotatedReport OpenOutcome.isOpen "annotated.txt" exampleBrokenSymbols
        = ⟨[Event.OpenAnnotatedFile "annotated.txt"], Termination.assertionFailed⟩ ∧
      WriteAnnotatedReport OpenOutcome.isOpen "annotated.txt" exampleUnmappedSymbols
        = ⟨[Event.OpenAnnotatedFile "annotated.txt",
            Event.AnnotatedStart,
            Event.PutAnnotatedLine AnnotatedLineState_t.A_SOURCE (textLine "f:".toList) 0],
            Termination.nullDereference⟩ := by
  decide

/-- The annotated report of the example walk: nothing for `A` and `C`, and
for `B`, whose range set is empty and whose branch set is not, the start
marker, its two lines and the end marker. -/
theorem WriteAnnotatedReport_walk_witness :
    WriteAnnotatedReport OpenOutcome.isOpen "annotated.txt" exampleAnnotatedSymbols
      = ⟨[Event.OpenAnnotatedFile "annotated.txt",
          Event.AnnotatedStart,
          Event.PutAnnotatedLine AnnotatedLineState_t.A_SOURCE (textLine "f:".toList) 0,
          Event.PutAnnotatedLine AnnotatedLineState_t.A_BRANCH_NOT_TAKEN
            (textLine "\tbeq 10c".toList ++ "<== NEVER TAKEN".toList) 3,
          Event.AnnotatedEnd,
          Event.CloseAnnotatedFile], Termination.returned⟩ :=
  (WriteAnnotatedReport_walk "annotated.txt" exampleAnnotatedSymbols
    (by decide) (by decide)).1

theorem annotatedSymbols_result_append (pre rest : List (String × SymbolInformation))
    (h : (annotatedSymbols pre).result = Termination.returned) :
    (annotatedSymbols (pre ++ rest)).result = (annotatedSymbols rest).result := by
  induction pre with
  | nil => rfl
  | cons s pre ih =>
    obtain ⟨symbol, info⟩ := s
    cases hr : info.uncoveredRanges with
    | none =>
      cases hb : info.uncoveredBranches with
      | none =>
        simp only [annotatedSymbols, hr, hb, List.cons_append] at h ⊢
        exact ih h
      | some theBranches => simp [annotatedSymbols, hr, hb] at h
    | some theRanges =>
      cases hb : info.uncoveredBranches with
      | none => simp [annotatedSymbols, hr, hb] at h
      | some theBranches =>
        simp only [annotatedSymbols, hr, hb, List.cons_append] at h ⊢
        split at h
        · rename_i he
          simp only [he, if_true]
          exact ih h
        · rename_i he
          simp only [he, if_false]
          split at h
          · rename_i hl
            simp only [hl, if_true]
            exact ih h
          · simp at h

theorem annotatedSymbols_assertion_reached (symbols : List (String × SymbolInformation))
    (h : (annotatedSymbols symbols).result = Termination.assertionFailed) :
    ∃ pre s post, symbols = pre ++ s :: post ∧ exactlyOnePresent s.2 = true ∧
      (annotatedSymbols pre).result = Termination.returned := by
  induction symbols with
  | nil => simp [annotatedSymbols] at h
  | cons s rest ih =>
    obtain ⟨symbol, info⟩ := s
    cases hr : info.uncoveredRanges with
    | none =>
      cases hb : info.uncoveredBranches with
      | none =>
        simp only [annotatedSymbols, hr, hb] at h
        obtain ⟨pre, t, post, hsplit, hone, hpre⟩ := ih h
        refine ⟨(symbol, info) :: pre, t, post, by simp [hsplit], hone, ?_⟩
        simpa only [annotatedSymbols, hr, hb] using hpre
      | some theBranches =>
        exact ⟨[], (symbol, info), rest, rfl, by simp [exactlyOnePresent, hr, hb], rfl⟩
    | some theRanges =>
      cases hb : info.uncoveredBranches with
      | none =>
        exact ⟨[], (symbol, info), rest, rfl, by simp [exactlyOnePresent, hr, hb], rfl⟩
      | some theBranches =>
        simp only [annotatedSymbols, hr, hb] at h
        split at h
        · rename_i he
          obtain ⟨pre, t, post, hsplit, hone, hpre⟩ := ih h
          refine ⟨(symbol, info) :: pre, t, post, by simp [hsplit], hone, ?_⟩
          simpa only [annotatedSymbols, hr, hb, he, if_true] using hpre
        · rename_i he
          split at h
          · rename_i hl
            obtain ⟨pre, t, post, hsplit, hone, hpre⟩ := ih h
            refine ⟨(symbol, info) :: pre, t, post, by simp [hsplit], hone, ?_⟩
            simpa only [annotatedSymbols, hr, hb, he, hl, if_true, if_false] using hpre
          · simp at h

theorem annotatedSymbols_assertion_of_one (s : String × SymbolInformation)
    (post : List (String × SymbolInformation)) (h : exactlyOnePresent s.2 = true) :
    annotatedSymbols (s :: post) = ⟨[], Termination.assertionFailed⟩ := by
  obtain ⟨symbol, info⟩ := s
  cases hr : info.uncoveredRanges with
  | none =>
    cases hb : info.uncoveredBranches with
    | none => simp [exactlyOnePresent, hr, hb] at h
    | some theBranches => simp [annotatedSymbols, hr, hb]
  | some theRanges =>
    cases hb : info.uncoveredBranches with
    | none => simp [annotatedSymbols, hr, hb]
    | some theBranches => simp [exactlyOnePresent, hr, hb] at h

/-- C17: with the stream open (and the assertion compiled in),
`WriteAnnotatedReport` ends in an assertion failure exactly when the symbol
walk reaches a symbol with exactly one of its two uncovered sets present,
that is, when the walk over the symbols before it runs to its end. A walk
without such a symbol never fails the assertion, and a symbol with both sets
absent is skipped: the run goes on with the rest of the walk. -/
theorem WriteAnnotatedReport_assertion (fileName : String)
    (symbolsToAnalyze : DesiredSymbols) :
    ((WriteAnnotatedReport OpenOutcome.isOpen fileName symbolsToAnalyze).result
          = Termination.assertionFailed ↔
        ∃ pre s post, symbolsToAnalyze.symbols = pre ++ s :: post ∧
          exactlyOnePresent s.2 = true ∧
          (annotatedSymbols pre).result = Termination.returned) ∧
      ((∀ s ∈ symbolsToAnalyze.symbols, exactlyOnePresent s.2 = false) →
        (WriteAnnotatedReport OpenOutcome.isOpen fileName symbolsToAnalyze).result
          ≠ Termination.assertionFailed) ∧
      (∀ (s : String × SymbolInformation) (rest : List (String × SymbolInformation)),
        s.2.uncoveredRanges.isSome = false → s.2.uncoveredBranches.isSome = false →
        annotatedSymbols (s :: rest) = annotatedSymbols rest) := by
  have hiff : (WriteAnnotatedReport OpenOutcome.isOpen fileName symbolsToAnalyze).result
        = Termination.assertionFailed ↔
      ∃ pre s post, symbolsToAnalyze.symbols = pre ++ s :: post ∧
        exactlyOnePresent s.2 = true ∧
        (annotatedSymbols pre).result = Termination.returned := by
    constructor
    · intro h
      exact annotatedSymbols_assertion_reached _ (by simpa [WriteAnnotatedReport] using h)
    · rintro ⟨pre, s, post, hsplit, hone, hpre⟩
      simp only [WriteAnnotatedReport, hsplit]
      rw [annotatedSymbols_result_append pre (s :: post) hpre,
        annotatedSymbols_assertion_of_one s post hone]
  refine ⟨hiff, ?_, ?_⟩
  · intro hall h
    obtain ⟨pre, s, post, hsplit, hone, _⟩ := hiff.1 h
    have := hall s (by simp [hsplit])
    simp [hone] at this
  · intro s rest hr hb
    obtain ⟨symbol, info⟩ := s
    have hr1 : info.uncoveredRanges = none := by simpa using hr
    have hb1 : info.uncoveredBranches = none := by simpa using hb
    simp [annotatedSymbols, hr1, hb1]

/-- The walk `A` (both sets absent), `D` (range set only), `B`: the run
skips `A`, fails the assertion at `D` and makes no call after the open
hook; the example walk without such a symbol returns. -/
theorem WriteAnnotatedReport_assertion_witness :
    WriteAnnotatedReport OpenOutcome.isOpen "annotated.txt" exampleBrokenSymbols
        = ⟨[Event.OpenAnnotatedFile "annotated.txt"], Termination.assertionFailed⟩ ∧
      (WriteAnnotatedReport OpenOutcome.isOpen "annotated.txt" exampleAnnotatedSymbols).result
        ≠ Termination.assertionFailed :=
  ⟨by decide,
    (WriteAnnotatedReport_assertion "annotated.txt" exampleAnnotatedSymbols).2.1
      (by decide)⟩

end Coverage

/-! ## Failed opens, annotation text, output files -/

namespace Coverage

/-- C18: when the stream is not open after the open hook,
`WriteAnnotatedReport` throws `Unable to open <fileName>` and makes no call
after the open hook, whereas `WriteBranchReport`, `WriteCoverageReport`
(whichever of its two streams is not open), `WriteSizeReport`,
`WriteSymbolSummaryReport` and `WriteSummaryReport` return having made no
call after their open hooks: no entry is emitted, and the summary is not
written whatever the fuel. -/
theorem failed_open (fileName : String) (symbolsToAnalyze : DesiredSymbols)
    (branchInfoAvailable : Bool) (openedReport : OpenOutcome) (fuel : Nat) :
    WriteAnnotatedReport OpenOutcome.notOpen fileName symbolsToAnalyze
        = ⟨[Event.OpenAnnotatedFile fileName],
            Termination.threw ("Unable to open " ++ fileName)
              "ReportsBase::WriteAnnotatedReport"⟩ ∧
      WriteBranchReport OpenOutcome.notOpen fileName symbolsToAnalyze branchInfoAvailable
        = ⟨[Event.OpenBranchFile fileName (hasBranches symbolsToAnalyze branchInfoAvailable)],
            Termination.returned⟩ ∧
      WriteCoverageReport OpenOutcome.notOpen openedReport fileName symbolsToAnalyze
        = ⟨[Event.OpenNoRangeFile ("no_range_" ++ fileName)], Termination.returned⟩ ∧
      WriteCoverageReport OpenOutcome.isOpen OpenOutcome.notOpen fileName symbolsToAnalyze
        = ⟨[Event.OpenNoRangeFile ("no_range_" ++ fileName), Event.OpenCoverageFile fileName],
            Termination.returned⟩ ∧
      WriteSizeReport OpenOutcome.notOpen fileName symbolsToAnalyze
        = ⟨[Event.OpenSizeFile fileName], Termination.returned⟩ ∧
      WriteSymbolSummaryReport OpenOutcome.notOpen fileName symbolsToAnalyze
        = ⟨[Event.OpenSymbolSummaryFile fileName], Termination.returned⟩ ∧
      WriteSummaryReport fuel OpenOutcome.notOpen symbolsToAnalyze branchInfoAvailable
        = some SummaryOutcome.notWritten :=
  ⟨rfl, rfl, rfl, rfl, rfl, rfl, rfl⟩

/-- C19: the annotation text appended to a line is the text that goes with
the state handed to `PutAnnotatedLine`: none for `A_SOURCE` and `A_EXECUTED`,
`<== NOT EXECUTED`, `<== ALWAYS TAKEN` and `<== NEVER TAKEN` for the three
other states, for every instruction and every answer of the coverage map;
and an identifier other than 0 only goes with a real instruction that was
not executed (state `A_NEVER_EXECUTED`) or that was executed and is a
branch. -/
theorem annotate_suffix_of_state (map : CoverageMapBase) (bAddress : Nat)
    (theRanges theBranches : CoverageRanges) (instruction : Instruction) :
    (∃ state id,
        annotate (some map) bAddress theRanges theBranches instruction
          = some (state, suffixOf state, id) ∧
        annotatedLine (some map) bAddress theRanges theBranches instruction
          = some (Event.PutAnnotatedLine state (textLine instruction.line ++ suffixOf state)
              id) ∧
        (id ≠ 0 → instruction.isInstruction = true ∧
          ((map.wasExecuted (sub32 instruction.address bAddress) = false ∧
              state = AnnotatedLineState_t.A_NEVER_EXECUTED) ∨
            (map.wasExecuted (sub32 instruction.address bAddress) = true ∧
              map.isBranch (sub32 instruction.address bAddress) = true)))) ∧
      (∀ (theCoverageMap : Option CoverageMapBase) (state : AnnotatedLineState_t)
          (suffix : List Char) (id : Nat),
        annotate theCoverageMap bAddress theRanges theBranches instruction
          = some (state, suffix, id) →
        suffix = suffixOf state) := by
  constructor
  · cases hI : instruction.isInstruction
    · exact ⟨AnnotatedLineState_t.A_SOURCE, 0, by simp [annotate, hI, suffixOf],
        by simp [annotatedLine, annotate, hI, suffixOf], by simp⟩
    · cases hE : map.wasExecuted (sub32 instruction.address bAddress)
      · exact ⟨AnnotatedLineState_t.A_NEVER_EXECUTED, theRanges.getId instruction.address,
          by simp [annotate, hI, hE, suffixOf],
          by simp [annotatedLine, annotate, hI, hE, suffixOf], by simp⟩
      · cases hB : map.isBranch (sub32 instruction.address bAddress)
        · exact ⟨AnnotatedLineState_t.A_EXECUTED, 0, by simp [annotate, hI, hE, hB, suffixOf],
            by simp [annotatedLine, annotate, hI, hE, hB, suffixOf], by simp⟩
        · cases hA : map.wasAlwaysTaken (sub32 instruction.address bAddress)
          · cases hN : map.wasNeverTaken (sub32 instruction.address bAddress)
            · exact ⟨AnnotatedLineState_t.A_SOURCE, theBranches.getId instruction.address,
                by simp [annotate, hI, hE, hB, hA, hN, suffixOf],
                by simp [annotatedLine, annotate, hI, hE, hB, hA, hN, suffixOf], by simp⟩
            · exact ⟨AnnotatedLineState_t.A_BRANCH_NOT_TAKEN,
                theBranches.getId instruction.address,
                by simp [annotate, hI, hE, hB, hA, hN, suffixOf],
                by simp [annotatedLine, annotate, hI, hE, hB, hA, hN, suffixOf], by simp⟩
          · exact ⟨AnnotatedLineState_t.A_BRANCH_TAKEN, theBranches.getId instruction.address,
              by simp [annotate, hI, hE, hB, hA, suffixOf],
              by simp [annotatedLine, annotate, hI, hE, hB, hA, suffixOf], by simp⟩
  · intro theCoverageMap state suffix id h
    simp only [annotate] at h
    split_ifs at h
    · cases theCoverageMap with
      | none => simp at h
      | some m =>
        simp only at h
        split_ifs at h <;> simp only [Option.some.injEq, Prod.mk.injEq] at h <;>
          obtain ⟨rfl, rfl, _⟩ := h <;> rfl
    · simp only [Option.some.injEq, Prod.mk.injEq] at h
      obtain ⟨rfl, rfl, _⟩ := h
      rfl

/-- The never-executed instruction of the example carries the text
`<== NOT EXECUTED` and id 7; its source line carries no text and id 0. -/
theorem annotate_suffix_of_state_witness :
    annotate (some exampleMap) 256 exampleRanges exampleBranches exampleInstruction
        = some (AnnotatedLineState_t.A_NEVER_EXECUTED,
            suffixOf AnnotatedLineState_t.A_NEVER_EXECUTED, 7) ∧
      "<== NOT EXECUTED".toList = suffixOf AnnotatedLineState_t.A_NEVER_EXECUTED :=
  ⟨by decide,
    (annotate_suffix_of_state exampleMap 256 exampleRanges exampleBranches
      exampleInstruction).2 (some exampleMap) AnnotatedLineState_t.A_NEVER_EXECUTED
      "<== NOT EXECUTED".toList 7 (by decide)⟩

/-- C16 (as the code has it): the file `WriteSummaryReport` opens for
`summary.txt` is the join of `outputDirectory`, `symbolSetName` and
`summary.txt`, in the directory of the symbol set that `OpenFile` creates:
the same path a per-format report hook opens for a file of that name. Every
per-format report is opened at the join of `outputDirectory`, the symbol set
name and its file name. -/
theorem summaryFile_path (path_join : String → String → String)
    (symbolSetName outputDirectory fileName : String) :
    summaryFile path_join symbolSetName outputDirectory
        = (path_join outputDirectory symbolSetName,
            path_join (path_join outputDirectory symbolSetName) "summary.txt") ∧
      summaryFile path_join symbolSetName outputDirectory
        = OpenReportFile path_join symbolSetName outputDirectory "summary.txt" ∧
      OpenReportFile path_join symbolSetName outputDirectory fileName
        = (path_join outputDirectory symbolSetName,
            path_join (path_join outputDirectory symbolSetName) fileName) :=
  ⟨rfl, rfl, rfl⟩

/-- C16 as stated fails: for output directory `out` and symbol set `score`
the summary is opened at `out/score/summary.txt`, in the directory of the
symbol set, not at `out/summary.txt`. -/
theorem summaryFile_not_under_outputDirectory :
    (summaryFile slashJoin "score" "out").2 = "out/score/summary.txt" ∧
      (summaryFile slashJoin "score" "out").2 ≠ slashJoin "out" "summary.txt" ∧
      (summaryFile slashJoin "score" "out").1
        = (OpenReportFile slashJoin "score" "out" "annotated.txt").1 := by
  decide

end Coverage

/-! ## Invariant of the byte scan -/

namespace Coverage

theorem summaryReport_percentages (totalBytes notExecuted : Nat)
    (symbolsToAnalyze : DesiredSymbols) (branchInfoAvailable : Bool)
    (h : notExecuted ≤ totalBytes) :
    0 ≤ (summaryReport totalBytes notExecuted symbolsToAnalyze
          branchInfoAvailable).percentageNotExecuted ∧
      (summaryReport totalBytes notExecuted symbolsToAnalyze
          branchInfoAvailable).percentageNotExecuted ≤ 100 ∧
      0 ≤ (summaryReport totalBytes notExecuted symbolsToAnalyze
          branchInfoAvailable).percentageExecuted ∧
      (summaryReport totalBytes notExecuted symbolsToAnalyze
          branchInfoAvailable).percentageExecuted ≤ 100 ∧
      (summaryReport totalBytes notExecuted symbolsToAnalyze
          branchInfoAvailable).percentageNotExecuted +
        (summaryReport totalBytes notExecuted symbolsToAnalyze
          branchInfoAvailable).percentageExecuted = 100 ∧
      (totalBytes ≠ 0 →
        (summaryReport totalBytes notExecuted symbolsToAnalyze
            branchInfoAvailable).percentageNotExecuted
          = 100 * (notExecuted : ℚ) / (totalBytes : ℚ)) := by
  by_cases ht : totalBytes = 0
  · subst ht
    simp [summaryReport]
  · have hpos : (0 : ℚ) < (totalBytes : ℚ) := by
      exact_mod_cast Nat.pos_of_ne_zero ht
    have hle : (notExecuted : ℚ) ≤ (totalBytes : ℚ) := by exact_mod_cast h
    have h0 : (0 : ℚ) ≤ 100 * (notExecuted : ℚ) / (totalBytes : ℚ) := by positivity
    have h100 : 100 * (notExecuted : ℚ) / (totalBytes : ℚ) ≤ 100 := by
      rw [div_le_iff₀ hpos]
      nlinarith
    simp only [summaryReport, beq_iff_eq, ht, if_false]
    exact ⟨h0, h100, by linarith, by linarith, by ring, by simp⟩

/-- C20: starting from a state of the byte scan with
`notExecuted <= totalBytes`, an iteration that does not wrap `totalBytes`
leads to the state with `totalBytes + 1` and `notExecuted` or
`notExecuted + 1`, where the inequality holds again (it holds at the start,
where both are 0); for totals with `notExecuted <= totalBytes` the
not-executed percentage, `100*notExecuted/totalBytes` unless `totalBytes` is
0, and the executed percentage written both lie in `[0, 100]` and sum to
100; and a scan whose byte total stays below `2^32` (symbol sizes at least
1) ends with such totals and writes such percentages. -/
theorem scan_invariant (theCoverageMap : CoverageMapBase)
    (endAddress fuel a totalBytes notExecuted : Nat)
    (symbolsToAnalyze : DesiredSymbols) (branchInfoAvailable : Bool)
    (hInv : notExecuted ≤ totalBytes) :
    (a ≤ endAddress → totalBytes + 1 < 2 ^ 32 →
        scanBytes theCoverageMap endAddress (fuel + 1) a totalBytes notExecuted
          = scanBytes theCoverageMap endAddress fuel ((a + 1) % 2 ^ 32) (totalBytes + 1)
              (if theCoverageMap.wasExecuted a then notExecuted else notExecuted + 1) ∧
        (if theCoverageMap.wasExecuted a then notExecuted else notExecuted + 1)
          ≤ totalBytes + 1) ∧
      (0 ≤ (summaryReport totalBytes notExecuted symbolsToAnalyze
            branchInfoAvailable).percentageNotExecuted ∧
        (summaryReport totalBytes notExecuted symbolsToAnalyze
            branchInfoAvailable).percentageNotExecuted ≤ 100 ∧
        0 ≤ (summaryReport totalBytes notExecuted symbolsToAnalyze
            branchInfoAvailable).percentageExecuted ∧
        (summaryReport totalBytes notExecuted symbolsToAnalyze
            branchInfoAvailable).percentageExecuted ≤ 100 ∧
        (summaryReport totalBytes notExecuted symbolsToAnalyze
            branchInfoAvailable).percentageNotExecuted +
          (summaryReport totalBytes notExecuted symbolsToAnalyze
            branchInfoAvailable).percentageExecuted = 100 ∧
        (totalBytes ≠ 0 →
          (summaryReport totalBytes notExecuted symbolsToAnalyze
              branchInfoAvailable).percentageNotExecuted
            = 100 * (notExecuted : ℚ) / (totalBytes : ℚ))) ∧
      ((∀ s ∈ symbolsToAnalyze.symbols,
          s.2.unifiedCoverageMap.isSome = true → 1 ≤ s.2.sizeInBytes) →
        mappedBytes symbolsToAnalyze.symbols < 2 ^ 32 →
        mappedBytes symbolsToAnalyze.symbols < fuel →
        ∃ report,
          WriteSummaryReport fuel OpenOutcome.isOpen symbolsToAnalyze branchInfoAvailable
            = some (SummaryOutcome.written report) ∧
          report.bytesNotExecuted ≤ report.bytesAnalyzed ∧
          0 ≤ report.percentageNotExecuted ∧ report.percentageNotExecuted ≤ 100 ∧
          0 ≤ report.percentageExecuted ∧ report.percentageExecuted ≤ 100 ∧
          report.percentageNotExecuted + report.percentageExecuted = 100) := by
  refine ⟨?_, summaryReport_percentages _ _ _ _ hInv, ?_⟩
  · intro ha hwrap
    have htb : (totalBytes + 1) % 2 ^ 32 = totalBytes + 1 := Nat.mod_eq_of_lt hwrap
    have hne : (notExecuted + 1) % 2 ^ 32 = notExecuted + 1 := Nat.mod_eq_of_lt (by omega)
    cases hx : theCoverageMap.wasExecuted a
    · refine ⟨?_, ?_⟩
      · simp only [scanBytes, ha, if_true, htb, hne, hx, Bool.not_false, Bool.false_eq_true,
          if_false]
      · simp only [Bool.false_eq_true, if_false]
        omega
    · refine ⟨?_, ?_⟩
      · simp only [scanBytes, ha, if_true, htb, hx, Bool.not_true, Bool.false_eq_true,
          if_false]
      · simp only [if_true]
        omega
  · intro hSize hSum hFuel
    have hscan := scanSymbols_run fuel symbolsToAnalyze.symbols 0 0 hSize (by omega)
      (Nat.le_refl 0) hFuel
    simp only [Nat.zero_add] at hscan
    have hle := notExecutedBytes_le symbolsToAnalyze.symbols
    obtain ⟨p0, p1, p2, p3, p4, _⟩ := summaryReport_percentages
      (mappedBytes symbolsToAnalyze.symbols) (notExecutedBytes symbolsToAnalyze.symbols)
      symbolsToAnalyze branchInfoAvailable hle
    exact ⟨_, by simp [WriteSummaryReport, hscan], hle, p0, p1, p2, p3, p4⟩

/-- With 14 bytes analyzed and 1 of them not executed, the summary shows
`50/7` percent not executed and `650/7` percent executed. -/
theorem scan_invariant_witness :
    (summaryReport 14 1 (exampleSummarySymbols []) true).percentageNotExecuted = 50 / 7 ∧
      (summaryReport 14 1 (exampleSummarySymbols []) true).percentageExecuted = 650 / 7 ∧
      (summaryReport 14 1 (exampleSummarySymbols []) true).percentageNotExecuted +
        (summaryReport 14 1 (exampleSummarySymbols []) true).percentageExecuted = 100 := by
  have h := (scan_invariant exampleStraightMap 13 20 0 14 1 (exampleSummarySymbols []) true
    (by decide)).2.1
  have hp := h.2.2.2.2.2 (by decide)
  have hs := h.2.2.2.2.1
  refine ⟨?_, ?_, hs⟩
  · rw [hp]; norm_num
  · have : (summaryReport 14 1 (exampleSummarySymbols []) true).percentageExecuted
        = 100 - (summaryReport 14 1 (exampleSummarySymbols []) true).percentageNotExecuted := by
      linarith
    rw [this, hp]; norm_num

end Coverage
